import Mathlib

/-!
Verification of the configuration-to-manifest resolution pipeline of the
otel-distro-builder repository.

The Python sources under `builder/src/` (config_parser.py,
component_registry.py, manifest_generator.py, version.py) are shallowly
embedded below.  YAML documents (already deserialized, as `yaml.safe_load`
returns them) are modelled by the inductive type `Yaml`; Python runtime
exceptions raised by the translated code paths are modelled by `PyErr` and
`Except`.  Data that the code loads from files that are not part of the
sources (components.yaml, versions.yaml, bindplane_components.yaml) is passed
to the embedded functions as an explicit parameter.
-/

/-- Python runtime exceptions that the embedded code paths can raise. -/
inductive PyErr where
  | valueError
  | typeError
  | attributeError
  | keyError
  deriving DecidableEq, Repr

/-- A deserialized YAML document, as produced by `yaml.safe_load`.
Scalars other than strings (numbers, booleans) do not occur in any of the
code paths exercised by the claims and are not modelled.  Mapping keys are
strings, as in all documents this program consumes and produces. -/
inductive Yaml where
  | null
  | str (s : String)
  | arr (items : List Yaml)
  | map (entries : List (String × Yaml))

/-- Structural equality of YAML values (Python `==` on the loaded data). -/
def Yaml.beq : Yaml → Yaml → Bool
  | .null, .null => true
  | .str a, .str b => a == b
  | .arr [], .arr [] => true
  | .arr (x :: xs), .arr (y :: ys) => Yaml.beq x y && Yaml.beq (.arr xs) (.arr ys)
  | .map [], .map [] => true
  | .map ((k, v) :: xs), .map ((k2, v2) :: ys) =>
      k == k2 && Yaml.beq v v2 && Yaml.beq (.map xs) (.map ys)
  | _, _ => false

/-- Python truthiness of a loaded YAML value (`if not x`).  `None`, empty
strings, empty lists and empty dicts are falsy. -/
def Yaml.truthy : Yaml → Bool
  | .null => false
  | .str s => s ≠ ""
  | .arr items => !items.isEmpty
  | .map entries => !entries.isEmpty

/-- First-match association-list lookup: Python `dict` access on the loaded
mapping entries. -/
def assocLookup {α : Type} : List (String × α) → String → Option α
  | [], _ => none
  | (k, v) :: rest, key => if k == key then some v else assocLookup rest key

/-- Occurrence test for `pat` at some position of `l` (Python substring
containment on the underlying characters). -/
def listHasSubstr (pat l : List Char) : Bool :=
  (List.range (l.length + 1)).any fun k => pat.isPrefixOf (l.drop k)

/-- Python `pat in s` for strings. -/
def hasSubstr (s pat : String) : Bool :=
  listHasSubstr pat.data s.data

/-- Python `member in container`.  Raises `TypeError` for containers that do
not support containment (`None`), and for string/dict containers probed with
a non-string member (dict keys in this program are strings). -/
def pyInOp (member container : Yaml) : Except PyErr Bool :=
  match container with
  | .str s =>
      match member with
      | .str m => .ok (hasSubstr s m)
      | _ => .error .typeError
  | .arr items => .ok (items.any (Yaml.beq member))
  | .map entries =>
      match member with
      | .str m => .ok (entries.any fun p => p.1 == m)
      | _ => .error .typeError
  | .null => .error .typeError

/-- Python `key in container` for a string key. -/
def pyContains (container : Yaml) (key : String) : Except PyErr Bool :=
  pyInOp (.str key) container

/-- Python `container.get(key, default)`: raises `AttributeError` when the
receiver is not a dict. -/
def pyGet (y : Yaml) (key : String) (default : Yaml) : Except PyErr Yaml :=
  match y with
  | .map entries => .ok ((assocLookup entries key).getD default)
  | _ => .error .attributeError

/-- Python `container[key]` for a string key: `KeyError` when absent from a
dict, `TypeError` when the receiver is not a dict. -/
def pySubscript (y : Yaml) (key : String) : Except PyErr Yaml :=
  match y with
  | .map entries =>
      match assocLookup entries key with
      | some v => .ok v
      | none => .error .keyError
  | _ => .error .typeError

/-- Python iteration `for x in y`: lists iterate their items, dicts their
keys, strings their characters; `None` raises `TypeError`. -/
def pyToIter (y : Yaml) : Except PyErr (List Yaml) :=
  match y with
  | .arr items => .ok items
  | .map entries => .ok (entries.map fun p => .str p.1)
  | .str s => .ok (s.data.map fun c => .str (String.mk [c]))
  | .null => .error .typeError

/-- Python `y.items()`: raises `AttributeError` when `y` is not a dict. -/
def pyItems (y : Yaml) : Except PyErr (List (String × Yaml)) :=
  match y with
  | .map entries => .ok entries
  | _ => .error .attributeError

/-- `name.split("/")[0]`: the base component name, i.e. the prefix of the
name up to the first `/`. -/
def baseName (s : String) : String :=
  String.mk (s.data.takeWhile fun c => c ≠ '/')

/-- Lexicographic comparison of strings by code point: Python `<=` on `str`,
as used by `sorted`. -/
def lexLe : List Char → List Char → Bool
  | [], _ => true
  | _ :: _, [] => false
  | x :: xs, y :: ys =>
      if x.toNat < y.toNat then true
      else if y.toNat < x.toNat then false
      else lexLe xs ys

/-- Insert into a lexicographically sorted list of strings. -/
def insertSorted (x : String) : List String → List String
  | [] => [x]
  | y :: ys => if lexLe x.data y.data then x :: y :: ys else y :: insertSorted x ys

/-- Ascending sort of strings (Python `sorted`). -/
def sortStrings (xs : List String) : List String :=
  xs.foldr insertSorted []

/-- Order-preserving deduplication (Python `set` collection; the subsequent
sort makes the iteration order of the set irrelevant). -/
def dedupList (xs : List String) : List String :=
  xs.foldl (fun acc x => if x ∈ acc then acc else acc ++ [x]) []

/-- Python `sorted(list(set(xs)))`. -/
def sortedDedup (xs : List String) : List String :=
  sortStrings (dedupList xs)

/-! ## Config parser (builder/src/config_parser.py) -/

/-- `ParsedComponents`: per-category base component names extracted from a
collector config. -/
structure ParsedComponents where
  receivers : List String
  processors : List String
  exporters : List String
  extensions : List String
  connectors : List String
  deriving DecidableEq, Repr

/-- `ConfigParser.__init__`: `yaml.safe_load` of an empty document gives
`None`, which the constructor replaces by `{}`. -/
def ConfigParser.init (y : Yaml) : Yaml :=
  match y with
  | .null => .map []
  | other => other

/-- `ConfigParser._extract_component_names`: unique sorted base names of the
keys of a top-level section.  A truthy non-mapping section raises
`AttributeError` (`.keys()`). -/
def extractComponentNames (cfg : Yaml) (section' : String) : Except PyErr (List String) := do
  let sectionData ← pyGet cfg section' (.map [])
  if !sectionData.truthy then
    .ok []
  else
    match sectionData with
    | .map entries => .ok (sortedDedup (entries.map fun p => baseName p.1))
    | _ => .error .attributeError

/-- Loop body for a receiver entry of a pipeline in
`ConfigParser._validate_against_service`: missing receivers are added with a
warning unless they are connectors. -/
def checkPipelineReceiver (comps : ParsedComponents) (ws : List String)
    (pipelineName receiver : String) : ParsedComponents × List String :=
  let base := baseName receiver
  if base ∈ comps.receivers then (comps, ws)
  else if base ∈ comps.connectors then (comps, ws)
  else
    ({ comps with receivers := comps.receivers ++ [base] },
     ws ++ ["Receiver '" ++ receiver ++ "' in pipeline '" ++ pipelineName ++
            "' not found in receivers or connectors section"])

/-- Loop body for a processor entry of a pipeline: missing processors are
always added with a warning (no connector exception). -/
def checkPipelineProcessor (comps : ParsedComponents) (ws : List String)
    (pipelineName processor : String) : ParsedComponents × List String :=
  let base := baseName processor
  if base ∈ comps.processors then (comps, ws)
  else
    ({ comps with processors := comps.processors ++ [base] },
     ws ++ ["Processor '" ++ processor ++ "' in pipeline '" ++ pipelineName ++
            "' not found in processors section"])

/-- Loop body for an exporter entry of a pipeline: missing exporters are
added with a warning unless they are connectors. -/
def checkPipelineExporter (comps : ParsedComponents) (ws : List String)
    (pipelineName exporter : String) : ParsedComponents × List String :=
  let base := baseName exporter
  if base ∈ comps.exporters then (comps, ws)
  else if base ∈ comps.connectors then (comps, ws)
  else
    ({ comps with exporters := comps.exporters ++ [base] },
     ws ++ ["Exporter '" ++ exporter ++ "' in pipeline '" ++ pipelineName ++
            "' not found in exporters or connectors section"])

/-- Loop body for an entry of `service.extensions`. -/
def checkServiceExtension (comps : ParsedComponents) (ws : List String)
    (ext : String) : ParsedComponents × List String :=
  let base := baseName ext
  if base ∈ comps.extensions then (comps, ws)
  else
    ({ comps with extensions := comps.extensions ++ [base] },
     ws ++ ["Extension '" ++ ext ++ "' in service.extensions not found in extensions section"])

/-- Runs one of the per-entry checks over the items of a pipeline list.
Each item must be a string (`.split` on anything else raises
`AttributeError`). -/
def processPipelineEntries
    (check : ParsedComponents → List String → String → String → ParsedComponents × List String)
    (pipelineName : String) (items : List Yaml) (acc : ParsedComponents × List String) :
    Except PyErr (ParsedComponents × List String) :=
  items.foldlM
    (fun a it =>
      match it with
      | .str s => .ok (check a.1 a.2 pipelineName s)
      | _ => .error .attributeError)
    acc

/-- Body of the `for pipeline_name, pipeline_config in pipelines.items()`
loop of `_validate_against_service`. -/
def processPipeline (pipelineName : String) (pipelineConfig : Yaml)
    (acc : ParsedComponents × List String) : Except PyErr (ParsedComponents × List String) :=
  if !pipelineConfig.truthy then .ok acc
  else do
    let rv ← pyGet pipelineConfig "receivers" (.arr [])
    let ritems ← pyToIter rv
    let acc ← processPipelineEntries checkPipelineReceiver pipelineName ritems acc
    let pv ← pyGet pipelineConfig "processors" (.arr [])
    let pitems ← pyToIter pv
    let acc ← processPipelineEntries checkPipelineProcessor pipelineName pitems acc
    let ev ← pyGet pipelineConfig "exporters" (.arr [])
    let eitems ← pyToIter ev
    processPipelineEntries checkPipelineExporter pipelineName eitems acc

/-- `ConfigParser._validate_against_service`: augments the extracted sets
from `service.pipelines` and `service.extensions`, then sorts and
deduplicates every category.  The returned list of strings collects the
`logger.warning` messages emitted along the way. -/
def validateAgainstService (cfg : Yaml) (comps : ParsedComponents) :
    Except PyErr (ParsedComponents × List String) := do
  let service ← pyGet cfg "service" (.map [])
  let pipelines ← pyGet service "pipelines" (.map [])
  let pentries ← pyItems pipelines
  let acc ← pentries.foldlM (fun a pe => processPipeline pe.1 pe.2 a) (comps, ([] : List String))
  let sexts ← pyGet service "extensions" (.arr [])
  let xitems ← pyToIter sexts
  let acc ← xitems.foldlM
    (fun a it =>
      match it with
      | .str s => .ok (checkServiceExtension a.1 a.2 s)
      | _ => .error .attributeError)
    acc
  .ok (⟨sortedDedup acc.1.receivers, sortedDedup acc.1.processors,
        sortedDedup acc.1.exporters, sortedDedup acc.1.extensions,
        sortedDedup acc.1.connectors⟩, acc.2)

/-- `ConfigParser.parse` on an already-deserialized document, paired with the
warnings logged during validation. -/
def ConfigParser.parse (cfg : Yaml) : Except PyErr (ParsedComponents × List String) := do
  let receivers ← extractComponentNames cfg "receivers"
  let processors ← extractComponentNames cfg "processors"
  let exporters ← extractComponentNames cfg "exporters"
  let extensions ← extractComponentNames cfg "extensions"
  let connectors ← extractComponentNames cfg "connectors"
  validateAgainstService cfg ⟨receivers, processors, exporters, extensions, connectors⟩

/-- The spanmetrics example configuration of the spec: the connector is used
as an exporter of the traces pipeline and as a receiver of the metrics
pipeline. -/
def spanmetricsConfig : Yaml :=
  .map
    [("receivers", .map [("otlp", .map [])]),
     ("exporters", .map [("prometheus", .map [])]),
     ("connectors", .map [("spanmetrics", .map [])]),
     ("service", .map
       [("pipelines", .map
         [("traces", .map
           [("receivers", .arr [.str "otlp"]),
            ("exporters", .arr [.str "spanmetrics"])]),
          ("metrics", .map
           [("receivers", .arr [.str "spanmetrics"]),
            ("exporters", .arr [.str "prometheus"])])])])]

/-- C4: during parsing, a pipeline receiver/exporter entry whose base name is
already a known connector (but not in its own category) is neither added nor
warned about; one absent from both its category and the connectors is added
with a warning; a pipeline processor entry absent from the processors set is
always added with a warning, with no connector exception.  The spanmetrics
configuration of the spec parses with no warnings and with the connector
recorded. -/
theorem pipeline_entry_connector_exception
    (comps : ParsedComponents) (ws : List String) (pname entry : String) :
    (baseName entry ∉ comps.receivers → baseName entry ∈ comps.connectors →
      checkPipelineReceiver comps ws pname entry = (comps, ws)) ∧
    (baseName entry ∉ comps.receivers → baseName entry ∉ comps.connectors →
      checkPipelineReceiver comps ws pname entry =
        ({ comps with receivers := comps.receivers ++ [baseName entry] },
         ws ++ ["Receiver '" ++ entry ++ "' in pipeline '" ++ pname ++
                "' not found in receivers or connectors section"])) ∧
    (baseName entry ∉ comps.exporters → baseName entry ∈ comps.connectors →
      checkPipelineExporter comps ws pname entry = (comps, ws)) ∧
    (baseName entry ∉ comps.exporters → baseName entry ∉ comps.connectors →
      checkPipelineExporter comps ws pname entry =
        ({ comps with exporters := comps.exporters ++ [baseName entry] },
         ws ++ ["Exporter '" ++ entry ++ "' in pipeline '" ++ pname ++
                "' not found in exporters or connectors section"])) ∧
    (baseName entry ∉ comps.processors →
      checkPipelineProcessor comps ws pname entry =
        ({ comps with processors := comps.processors ++ [baseName entry] },
         ws ++ ["Processor '" ++ entry ++ "' in pipeline '" ++ pname ++
                "' not found in processors section"])) ∧
    ConfigParser.parse spanmetricsConfig =
      .ok (⟨["otlp"], [], ["prometheus"], [], ["spanmetrics"]⟩, []) := by
  refine ⟨?_, ?_, ?_, ?_, ?_, by rfl⟩
  case refine_5 =>
    intro h1
    simp [checkPipelineProcessor, h1]
  all_goals
    intro h1 h2
    simp [checkPipelineReceiver, checkPipelineExporter, h1, h2]

/-- Witness for C4 at concrete inputs: a connector entry triggers the silent
branch, an unknown entry is added with a warning, and an unknown processor is
warned about even though it is a known connector. -/
theorem pipeline_entry_connector_exception_witness :
    ("spanmetrics" ∉ (["otlp"] : List String) ∧ "spanmetrics" ∈ (["spanmetrics"] : List String) ∧
      checkPipelineReceiver ⟨["otlp"], [], [], [], ["spanmetrics"]⟩ [] "traces" "spanmetrics" =
        (⟨["otlp"], [], [], [], ["spanmetrics"]⟩, [])) ∧
    ("mystery" ∉ (["otlp"] : List String) ∧ "mystery" ∉ (["spanmetrics"] : List String) ∧
      checkPipelineReceiver ⟨["otlp"], [], [], [], ["spanmetrics"]⟩ [] "traces" "mystery" =
        (⟨["otlp", "mystery"], [], [], [], ["spanmetrics"]⟩,
         ["Receiver 'mystery' in pipeline 'traces' not found in receivers or connectors section"])) ∧
    ("spanmetrics" ∉ ([] : List String) ∧
      checkPipelineProcessor ⟨["otlp"], [], [], [], ["spanmetrics"]⟩ [] "traces" "spanmetrics" =
        (⟨["otlp"], ["spanmetrics"], [], [], ["spanmetrics"]⟩,
         ["Processor 'spanmetrics' in pipeline 'traces' not found in processors section"])) := by
  refine ⟨⟨by decide, by decide, ?_⟩, ⟨by decide, by decide, ?_⟩, ⟨by decide, ?_⟩⟩
  · exact (pipeline_entry_connector_exception ⟨["otlp"], [], [], [], ["spanmetrics"]⟩ []
      "traces" "spanmetrics").1 (by decide) (by decide)
  · have h := (pipeline_entry_connector_exception ⟨["otlp"], [], [], [], ["spanmetrics"]⟩ []
      "traces" "mystery").2.1 (by decide) (by decide)
    simpa using h
  · have h := (pipeline_entry_connector_exception ⟨["otlp"], [], [], [], ["spanmetrics"]⟩ []
      "traces" "spanmetrics").2.2.2.2.1 (by decide)
    simpa using h

/-- C10: `parse` treats an empty or absent document (deserialized to `None`)
as an empty configuration, but raises on a top-level list and on a category
section holding a non-empty list. -/
theorem parse_tolerance_boundaries :
    ConfigParser.parse (ConfigParser.init .null) = .ok (⟨[], [], [], [], []⟩, []) ∧
    (ConfigParser.parse (ConfigParser.init (.arr [.str "receivers"]))).isOk = false ∧
    (ConfigParser.parse
      (ConfigParser.init (.map [("receivers", .arr [.str "otlp"])]))).isOk = false := by
  exact ⟨rfl, rfl, rfl⟩

/-! ## Component registry (builder/src/component_registry.py) -/

/-- Python `str.replace(pat, rep)` on character lists: leftmost,
non-overlapping.  The empty-pattern case never arises in the embedded code
(the pattern is always the non-empty version placeholder); the guard is
needed for termination only. -/
def replaceFuel (pat rep : List Char) : Nat → List Char → List Char
  | _, [] => []
  | 0, l => l
  | fuel + 1, c :: rest =>
      if pat ≠ [] ∧ pat.isPrefixOf (c :: rest) then
        rep ++ replaceFuel pat rep fuel ((c :: rest).drop pat.length)
      else
        c :: replaceFuel pat rep fuel rest

/-- Python `str.replace` on character lists; each recursion step consumes at
least one character, so fuel equal to the input length suffices. -/
def replaceL (pat rep l : List Char) : List Char :=
  replaceFuel pat rep l.length l

/-- Python `s.replace(pat, rep)`. -/
def pyReplace (s pat rep : String) : String :=
  String.mk (replaceL pat.data rep.data s.data)

/-- The version placeholder used by the component data files. -/
def VERSION_PLACEHOLDER : String := "__VERSION__"

/-- `ComponentInfo`: a resolved component identity. -/
structure ComponentInfo where
  name : String
  gomod : String
  source : String
  componentType : String
  deriving DecidableEq, Repr

/-- An entry of the registry data file (components.yaml, which is not part
of the sources): a gomod template and an optional origin tag. -/
structure RegFileEntry where
  gomod : String
  source : Option String
  deriving DecidableEq, Repr

/-- Raw registry data-file contents: category name to (base name to entry). -/
abbrev RegFileData := List (String × List (String × RegFileEntry))

/-- The in-memory registry: category name to (base name to `ComponentInfo`). -/
abbrev Registry := List (String × List (String × ComponentInfo))

/-- The six category tables initialized by `ComponentRegistry.__init__`. -/
def REGISTRY_TYPES : List String :=
  ["receivers", "processors", "exporters", "extensions", "connectors", "providers"]

/-- `ComponentRegistry._load_components`: only the six known category tables
are populated; each loaded entry records the dict key as its name, the file
entry's gomod, the origin tag defaulting to "contrib", and its category. -/
def loadComponents (fileData : RegFileData) : Registry :=
  REGISTRY_TYPES.map fun t =>
    (t,
     match assocLookup fileData t with
     | some entries =>
         entries.map fun p => (p.1, ⟨p.1, p.2.gomod, p.2.source.getD "contrib", t⟩)
     | none => [])

/-- `component_type if component_type.endswith("s") else component_type + "s"`. -/
def pluralize (componentType : String) : String :=
  if componentType.data.getLast? = some 's' then componentType else componentType ++ "s"

/-- `ComponentRegistry._apply_version`. -/
def applyVersion (gomod version : String) : String :=
  if hasSubstr gomod VERSION_PLACEHOLDER then
    pyReplace gomod VERSION_PLACEHOLDER version
  else gomod

/-- `ComponentRegistry.lookup`: normalizes the category to its plural form,
strips any instance suffix from the name, and returns a fresh copy of the
stored entry with the version applied to its gomod template. -/
def ComponentRegistry.lookup (reg : Registry) (componentType name version : String) :
    Option ComponentInfo :=
  let ct := pluralize componentType
  let base := baseName name
  match assocLookup ((assocLookup reg ct).getD []) base with
  | some component =>
      some ⟨component.name, applyVersion component.gomod version,
            component.source, component.componentType⟩
  | none => none

/-! ## Component resolver (resolve_components in builder/src/config_parser.py) -/

/-- `ResolvedComponents`: resolved component identities per category plus the
per-category unresolved names (the source keeps the latter in a dict keyed by
the five category names). -/
structure ResolvedComponents where
  receivers : List ComponentInfo
  processors : List ComponentInfo
  exporters : List ComponentInfo
  extensions : List ComponentInfo
  connectors : List ComponentInfo
  unresolvedReceivers : List String
  unresolvedProcessors : List String
  unresolvedExporters : List String
  unresolvedExtensions : List String
  unresolvedConnectors : List String
  deriving DecidableEq, Repr

/-- Body of the `for name in names` loop of `resolve_list`: a custom mapping
hit takes precedence and produces an origin-"custom" identity; otherwise the
registry is consulted; otherwise the name is recorded as unresolved (the
similarity lookup only feeds a log message and does not affect the result). -/
def resolveName (reg : Registry) (custom : List (String × String))
    (version componentType name : String) : ComponentInfo ⊕ String :=
  match assocLookup custom name with
  | some tmpl =>
      .inl ⟨name, pyReplace tmpl VERSION_PLACEHOLDER version, "custom", componentType⟩
  | none =>
      match ComponentRegistry.lookup reg componentType name version with
      | some info => .inl info
      | none => .inr name

/-- `resolve_list`: resolves each name in order, partitioning into resolved
identities and unresolved names (both in input order, as the source's two
append-only lists). -/
def resolveList (reg : Registry) (custom : List (String × String))
    (version componentType : String) : List String → List ComponentInfo × List String
  | [] => ([], [])
  | n :: ns =>
      let rest := resolveList reg custom version componentType ns
      match resolveName reg custom version componentType n with
      | .inl info => (info :: rest.1, rest.2)
      | .inr u => (rest.1, u :: rest.2)

/-- `(custom_mappings or {}).get(component_type, {})`. -/
def customFor (customMappings : Option (List (String × List (String × String))))
    (componentType : String) : List (String × String) :=
  match customMappings with
  | none => []
  | some m => (assocLookup m componentType).getD []

/-- `resolve_components`: resolves the five parsed categories against the
custom mappings and the loaded registry. -/
def resolveComponents (reg : Registry) (parsed : ParsedComponents) (version : String)
    (customMappings : Option (List (String × List (String × String)))) :
    ResolvedComponents :=
  let r := resolveList reg (customFor customMappings "receivers") version "receivers"
    parsed.receivers
  let p := resolveList reg (customFor customMappings "processors") version "processors"
    parsed.processors
  let e := resolveList reg (customFor customMappings "exporters") version "exporters"
    parsed.exporters
  let x := resolveList reg (customFor customMappings "extensions") version "extensions"
    parsed.extensions
  let c := resolveList reg (customFor customMappings "connectors") version "connectors"
    parsed.connectors
  ⟨r.1, p.1, e.1, x.1, c.1, r.2, p.2, e.2, x.2, c.2⟩

/-- A demonstration registry whose receivers table carries an entry for
`otlp` (used by witnesses to show overrides beat registry entries). -/
def demoRegistry : Registry :=
  loadComponents
    [("receivers",
      [("otlp", ⟨"go.opentelemetry.io/collector/receiver/otlpreceiver v__VERSION__", some "core"⟩),
       ("filelog",
        ⟨"github.com/open-telemetry/opentelemetry-collector-contrib/receiver/filelogreceiver v__VERSION__",
         some "contrib"⟩)])]

/-- C8: a custom-override hit produces an origin-"custom" identity built from
the override template with the version substituted, without consulting the
registry: the result is the same for every registry, including one holding an
entry for the same base name. -/
theorem custom_override_beats_registry
    (reg : Registry) (custom : List (String × String))
    (version componentType name tmpl : String)
    (h : assocLookup custom name = some tmpl) :
    resolveName reg custom version componentType name =
      .inl ⟨name, pyReplace tmpl VERSION_PLACEHOLDER version, "custom", componentType⟩ ∧
    resolveList reg custom version componentType [name] =
      ([⟨name, pyReplace tmpl VERSION_PLACEHOLDER version, "custom", componentType⟩], []) := by
  constructor
  · simp [resolveName, h]
  · simp [resolveList, resolveName, h]

/-- Witness for C8: the override for `otlp` wins over the registry entry for
`otlp` and yields the substituted custom module string. -/
theorem custom_override_beats_registry_witness :
    (assocLookup [("otlp", "example.com/custom/otlpreceiver __VERSION__")] "otlp" =
      some "example.com/custom/otlpreceiver __VERSION__") ∧
    (assocLookup ((assocLookup demoRegistry "receivers").getD []) "otlp").isSome = true ∧
    resolveName demoRegistry [("otlp", "example.com/custom/otlpreceiver __VERSION__")]
        "0.122.0" "receivers" "otlp" =
      .inl ⟨"otlp", "example.com/custom/otlpreceiver 0.122.0", "custom", "receivers"⟩ := by
  refine ⟨rfl, rfl, ?_⟩
  have h := (custom_override_beats_registry demoRegistry
    [("otlp", "example.com/custom/otlpreceiver __VERSION__")]
    "0.122.0" "receivers" "otlp" "example.com/custom/otlpreceiver __VERSION__" rfl).1
  rw [h]
  rfl


/-! ## Lemmas about substring replacement -/

theorem replaceFuel_congr (pat rep : List Char) :
    ∀ fuel₁ fuel₂ l, l.length ≤ fuel₁ → l.length ≤ fuel₂ →
      replaceFuel pat rep fuel₁ l = replaceFuel pat rep fuel₂ l := by
  intro fuel₁
  induction fuel₁ with
  | zero =>
    intro fuel₂ l h1 _
    match l with
    | [] => cases fuel₂ <;> rfl
    | _ :: _ => simp at h1
  | succ f ih =>
    intro fuel₂ l h1 h2
    match l with
    | [] => cases fuel₂ <;> rfl
    | c :: rest =>
      match fuel₂ with
      | 0 => simp at h2
      | g + 1 =>
        simp only [replaceFuel]
        by_cases hc : pat ≠ [] ∧ pat.isPrefixOf (c :: rest)
        · simp only [if_pos hc]
          have hplen : 0 < pat.length := List.length_pos.mpr hc.1
          simp only [List.length_cons] at h1 h2
          have hd : ((c :: rest).drop pat.length).length ≤ f := by
            simp only [List.length_drop, List.length_cons]
            omega
          have hd2 : ((c :: rest).drop pat.length).length ≤ g := by
            simp only [List.length_drop, List.length_cons]
            omega
          rw [ih g _ hd hd2]
        · simp only [if_neg hc]
          simp only [List.length_cons] at h1 h2
          rw [ih g rest (by omega) (by omega)]

theorem replaceFuel_no_occ (pat rep : List Char) :
    ∀ l fuel, l.length ≤ fuel → (∀ k, ¬ pat.isPrefixOf (l.drop k)) →
      replaceFuel pat rep fuel l = l := by
  intro l
  induction l with
  | nil => intro fuel _ _; cases fuel <;> rfl
  | cons c rest ih =>
    intro fuel h1 h2
    match fuel with
    | 0 => simp at h1
    | f + 1 =>
      have hnp : ¬ (pat ≠ [] ∧ pat.isPrefixOf (c :: rest)) := by
        intro hc
        exact h2 0 (by simpa using hc.2)
      simp only [replaceFuel, if_neg hnp]
      simp only [List.length_cons] at h1
      rw [ih f (by omega) (fun k => by simpa [List.drop_succ_cons] using h2 (k + 1))]

/-- If `pat` does not occur in `l`, replacement is the identity. -/
theorem replaceL_no_occ (pat rep l : List Char) (h : ∀ k, ¬ pat.isPrefixOf (l.drop k)) :
    replaceL pat rep l = l :=
  replaceFuel_no_occ pat rep l l.length (Nat.le_refl _) h

/-- Unfolding equation for `replaceFuel` on a non-empty input. -/
theorem replaceFuel_cons (pat rep : List Char) (f : Nat) (c : Char) (rest : List Char) :
    replaceFuel pat rep (f + 1) (c :: rest) =
      if pat ≠ [] ∧ pat.isPrefixOf (c :: rest) then
        rep ++ replaceFuel pat rep f ((c :: rest).drop pat.length)
      else c :: replaceFuel pat rep f rest := rfl

theorem replaceFuel_decomp (pat rep : List Char) (hpat : pat ≠ []) :
    ∀ a b fuel, (a ++ pat ++ b).length ≤ fuel →
      (∀ k, k < a.length → ¬ pat.isPrefixOf ((a ++ pat ++ b).drop k)) →
      replaceFuel pat rep fuel (a ++ pat ++ b) =
        a ++ rep ++ replaceFuel pat rep b.length b := by
  intro a
  induction a with
  | nil =>
    intro b fuel hf _
    match pat, hpat with
    | p :: pt, _ =>
      have heq : ([] : List Char) ++ (p :: pt) ++ b = p :: (pt ++ b) := by simp
      rw [heq] at hf ⊢
      match fuel with
      | 0 => simp at hf
      | f + 1 =>
        rw [replaceFuel_cons]
        rw [if_pos ⟨by simp, List.isPrefixOf_iff_prefix.mpr ⟨b, by simp⟩⟩]
        have hdrop : (p :: (pt ++ b)).drop (p :: pt).length = b := by
          simp only [List.length_cons, List.drop_succ_cons]
          exact List.drop_left pt b
        rw [hdrop]
        have hlen : b.length ≤ f := by
          simp only [List.length_cons, List.length_append] at hf
          omega
        rw [replaceFuel_congr (p :: pt) rep f b.length b hlen (Nat.le_refl _)]
        simp
  | cons c a' ih =>
    intro b fuel hf hocc
    have heq : (c :: a') ++ pat ++ b = c :: (a' ++ pat ++ b) := by simp
    rw [heq] at hf ⊢
    match fuel with
    | 0 => simp at hf
    | f + 1 =>
      rw [replaceFuel_cons]
      have hnp : ¬ (pat ≠ [] ∧ pat.isPrefixOf (c :: (a' ++ pat ++ b))) := by
        intro hc
        have h0 := hocc 0 (by simp)
        rw [heq] at h0
        exact h0 (by simpa using hc.2)
      rw [if_neg hnp]
      have hf' : (a' ++ pat ++ b).length ≤ f := by
        simp only [List.length_cons] at hf
        omega
      have hocc' : ∀ k, k < a'.length → ¬ pat.isPrefixOf ((a' ++ pat ++ b).drop k) := by
        intro k hk
        have h := hocc (k + 1) (by simp only [List.length_cons]; omega)
        rw [heq] at h
        simpa [List.drop_succ_cons] using h
      rw [ih b f hf' hocc']
      simp

/-- Replacement of a pattern that occurs exactly at the seam of a
decomposition: the replacement is spliced in and the tail is processed
recursively. -/
theorem replaceL_decomp (pat rep a b : List Char) (hpat : pat ≠ [])
    (hocc : ∀ k, k < a.length → ¬ pat.isPrefixOf ((a ++ pat ++ b).drop k)) :
    replaceL pat rep (a ++ pat ++ b) = a ++ rep ++ replaceL pat rep b :=
  replaceFuel_decomp pat rep hpat a b (a ++ pat ++ b).length (Nat.le_refl _) hocc

/-- Number of positions at which `pat` occurs in `l`. -/
def occCount (pat l : List Char) : Nat :=
  ((List.range (l.length + 1)).filter fun k => pat.isPrefixOf (l.drop k)).length

theorem filter_length_one {p : Nat → Bool} :
    ∀ (l : List Nat), l.Nodup → ∀ i, i ∈ l → p i = true →
      (∀ k ∈ l, p k = true → k = i) → (l.filter p).length = 1 := by
  intro l
  induction l with
  | nil => intro _ i hi; cases hi
  | cons x xs ih =>
    intro hnd i hi hpi huniq
    rw [List.filter_cons]
    by_cases hx : p x = true
    · have hxi : x = i := huniq x (by simp) hx
      have hnil : xs.filter p = [] := by
        rw [List.filter_eq_nil_iff]
        intro a ha hpa
        have hax : a = i := huniq a (by simp [ha]) hpa
        have hxs : x ∉ xs := (List.nodup_cons.mp hnd).1
        rw [hax, ← hxi] at ha
        exact hxs ha
      simp [hx, hnil]
    · have hix : i ∈ xs := by
        rcases List.mem_cons.mp hi with h | h
        · exact absurd (h ▸ hpi) hx
        · exact h
      have := ih (List.nodup_cons.mp hnd).2 i hix hpi
        (fun k hk hpk => huniq k (List.mem_cons_of_mem _ hk) hpk)
      simp [hx, this]

theorem listHasSubstr_decomp (pat a b : List Char) :
    listHasSubstr pat (a ++ pat ++ b) = true := by
  unfold listHasSubstr
  rw [List.any_eq_true]
  refine ⟨a.length, List.mem_range.mpr ?_, ?_⟩
  · simp only [List.length_append]
    omega
  · rw [List.append_assoc, List.drop_left]
    exact List.isPrefixOf_iff_prefix.mpr ⟨b, rfl⟩

theorem no_occ_of_not_hasSubstr (pat l : List Char) (hpat : pat ≠ [])
    (h : listHasSubstr pat l = false) : ∀ k, ¬ pat.isPrefixOf (l.drop k) := by
  intro k hk
  by_cases hkl : k ≤ l.length
  · have : listHasSubstr pat l = true := by
      unfold listHasSubstr
      rw [List.any_eq_true]
      exact ⟨k, List.mem_range.mpr (by omega), hk⟩
    rw [h] at this
    cases this
  · rw [List.drop_eq_nil_of_le (by omega)] at hk
    have := List.isPrefixOf_iff_prefix.mp hk
    exact hpat (List.prefix_nil.mp this)

/-- When every occurrence of `pat` in `a ++ pat ++ b` is at the seam, the
occurrence count is exactly one. -/
theorem occCount_decomp_eq_one (pat a b : List Char)
    (huniq : ∀ k, k ≤ (a ++ pat ++ b).length →
      pat.isPrefixOf ((a ++ pat ++ b).drop k) → k = a.length) :
    occCount pat (a ++ pat ++ b) = 1 := by
  unfold occCount
  apply filter_length_one _ (List.nodup_range _) a.length
  · refine List.mem_range.mpr ?_
    simp only [List.length_append]
    omega
  · rw [List.append_assoc, List.drop_left]
    exact List.isPrefixOf_iff_prefix.mpr ⟨b, rfl⟩
  · intro k hk hpk
    exact huniq k (by have := List.mem_range.mp hk; omega) hpk

/-! ## Registry load invariants and the lookup contract -/

theorem innerTable_entry :
    ∀ (entries : List (String × RegFileEntry)) (t n : String) (e : ComponentInfo),
      assocLookup (entries.map fun p =>
        (p.1, (⟨p.1, p.2.gomod, p.2.source.getD "contrib", t⟩ : ComponentInfo))) n = some e →
      e.name = n ∧ e.componentType = t := by
  intro entries
  induction entries with
  | nil => intro t n e h; simp [assocLookup] at h
  | cons p ps ih =>
    intro t n e h
    simp only [List.map_cons, assocLookup] at h
    split at h
    · next hk =>
      have hpn : p.1 = n := eq_of_beq hk
      cases h
      exact ⟨hpn, rfl⟩
    · exact ih t n e h

theorem regTable_entry (fileData : RegFileData) :
    ∀ (types : List String) (ct n : String) (e : ComponentInfo),
      assocLookup ((assocLookup (types.map fun t =>
        (t, match assocLookup fileData t with
            | some entries => entries.map fun p =>
                (p.1, (⟨p.1, p.2.gomod, p.2.source.getD "contrib", t⟩ : ComponentInfo))
            | none => [])) ct).getD []) n = some e →
      e.name = n ∧ e.componentType = ct := by
  intro types
  induction types with
  | nil => intro ct n e h; simp [assocLookup] at h
  | cons t ts ih =>
    intro ct n e h
    simp only [List.map_cons, assocLookup] at h
    split at h
    · next hk =>
      have htc : t = ct := eq_of_beq hk
      simp only [Option.getD_some] at h
      subst htc
      rcases hfd : assocLookup fileData t with _ | entries
      · rw [hfd] at h
        simp [assocLookup] at h
      · rw [hfd] at h
        exact innerTable_entry entries t n e h
    · exact ih ct n e h

/-- Every entry stored in a loaded registry records its own dict key as its
name and its table's category as its component type. -/
theorem loadComponents_entry (fileData : RegFileData) (ct n : String) (e : ComponentInfo)
    (h : assocLookup ((assocLookup (loadComponents fileData) ct).getD []) n = some e) :
    e.name = n ∧ e.componentType = ct :=
  regTable_entry fileData REGISTRY_TYPES ct n e h

theorem baseName_idem (s : String) : baseName (baseName s) = baseName s := by
  simp [baseName, List.takeWhile_idem]

/-- C9: for every loaded registry, category, name and version, `lookup`
strips the instance suffix before the table access, returns `none` exactly
when the base name is absent from the (pluralized) category table, and
otherwise returns a fresh copy whose name is the base name, whose category
is the pluralized category, and whose module string is the stored template
with the version substituted at each placeholder occurrence; for a template
holding the placeholder exactly once the substitution splices the version at
the placeholder position, and the resolved module then contains the version
token exactly once whenever the version does not also occur elsewhere.  The
stored template itself is never changed: the result for any version is
computed from the same stored entry, so a later lookup with a different
version reflects that version. -/
theorem registry_lookup_contract
    (fileData : RegFileData) (componentType name version : String) :
    (ComponentRegistry.lookup (loadComponents fileData) componentType name version =
       ComponentRegistry.lookup (loadComponents fileData) componentType (baseName name) version) ∧
    (ComponentRegistry.lookup (loadComponents fileData) componentType name version = none ↔
       assocLookup ((assocLookup (loadComponents fileData) (pluralize componentType)).getD [])
         (baseName name) = none) ∧
    (∀ e, assocLookup ((assocLookup (loadComponents fileData) (pluralize componentType)).getD [])
         (baseName name) = some e →
       ∀ v : String,
         ComponentRegistry.lookup (loadComponents fileData) componentType name v =
           some ⟨baseName name, applyVersion e.gomod v, e.source, pluralize componentType⟩) ∧
    (∀ tmpl : String, ∀ a b : List Char,
       tmpl.data = a ++ VERSION_PLACEHOLDER.data ++ b →
       (∀ k, k < a.length →
         ¬ VERSION_PLACEHOLDER.data.isPrefixOf ((a ++ VERSION_PLACEHOLDER.data ++ b).drop k)) →
       listHasSubstr VERSION_PLACEHOLDER.data b = false →
       (applyVersion tmpl version).data = a ++ version.data ++ b ∧
       ((∀ k, k ≤ (a ++ version.data ++ b).length →
           version.data.isPrefixOf ((a ++ version.data ++ b).drop k) → k = a.length) →
         occCount version.data (applyVersion tmpl version).data = 1)) := by
  refine ⟨?_, ?_, ?_, ?_⟩
  · simp only [ComponentRegistry.lookup, baseName_idem]
  · rcases h : assocLookup ((assocLookup (loadComponents fileData)
        (pluralize componentType)).getD []) (baseName name) with _ | e <;>
      simp [ComponentRegistry.lookup, h]
  · intro e he v
    have hinv := loadComponents_entry fileData (pluralize componentType) (baseName name) e he
    simp only [ComponentRegistry.lookup, he]
    rw [hinv.1, hinv.2]
  · intro tmpl a b htmpl hocc hb
    have hpd : VERSION_PLACEHOLDER.data ≠ [] := by decide
    have hsubstr : hasSubstr tmpl VERSION_PLACEHOLDER = true := by
      unfold hasSubstr
      rw [htmpl]
      exact listHasSubstr_decomp _ a b
    have heq : (applyVersion tmpl version).data = a ++ version.data ++ b := by
      unfold applyVersion
      rw [if_pos hsubstr]
      unfold pyReplace
      show (replaceL VERSION_PLACEHOLDER.data version.data tmpl.data) = _
      rw [htmpl, replaceL_decomp _ _ _ _ hpd hocc,
        replaceL_no_occ _ _ _ (no_occ_of_not_hasSubstr _ _ hpd hb)]
    refine ⟨heq, fun huniq => ?_⟩
    rw [heq]
    exact occCount_decomp_eq_one version.data a b huniq

/-- Witness for C9: looking up `otlp/traces` in a loaded demo registry
resolves the base name `otlp` and substitutes two different versions into
the same stored template; the resolved module contains the version token
exactly once. -/
theorem registry_lookup_contract_witness :
    (assocLookup ((assocLookup (loadComponents
        [("receivers", [("otlp",
          ⟨"go.opentelemetry.io/collector/receiver/otlpreceiver v__VERSION__", some "core"⟩)])])
        (pluralize "receivers")).getD []) (baseName "otlp/traces") =
      some ⟨"otlp", "go.opentelemetry.io/collector/receiver/otlpreceiver v__VERSION__",
            "core", "receivers"⟩) ∧
    (ComponentRegistry.lookup (loadComponents
        [("receivers", [("otlp",
          ⟨"go.opentelemetry.io/collector/receiver/otlpreceiver v__VERSION__", some "core"⟩)])])
        "receivers" "otlp/traces" "0.122.0" =
      some ⟨"otlp",
        applyVersion "go.opentelemetry.io/collector/receiver/otlpreceiver v__VERSION__" "0.122.0",
        "core", "receivers"⟩) ∧
    (ComponentRegistry.lookup (loadComponents
        [("receivers", [("otlp",
          ⟨"go.opentelemetry.io/collector/receiver/otlpreceiver v__VERSION__", some "core"⟩)])])
        "receivers" "otlp/traces" "0.123.0" =
      some ⟨"otlp",
        applyVersion "go.opentelemetry.io/collector/receiver/otlpreceiver v__VERSION__" "0.123.0",
        "core", "receivers"⟩) ∧
    (applyVersion "go.opentelemetry.io/collector/receiver/otlpreceiver v__VERSION__"
        "0.122.0").data =
      ("go.opentelemetry.io/collector/receiver/otlpreceiver v").data ++ ("0.122.0").data ++ [] ∧
    occCount ("0.122.0").data
      (applyVersion "go.opentelemetry.io/collector/receiver/otlpreceiver v__VERSION__"
        "0.122.0").data = 1 := by
  have hbase : baseName "otlp/traces" = "otlp" := by decide
  have hpl : pluralize "receivers" = "receivers" := by decide
  have h := registry_lookup_contract
    [("receivers", [("otlp",
      ⟨"go.opentelemetry.io/collector/receiver/otlpreceiver v__VERSION__", some "core"⟩)])]
    "receivers" "otlp/traces" "0.122.0"
  have h3 := h.2.2.1 ⟨"otlp", "go.opentelemetry.io/collector/receiver/otlpreceiver v__VERSION__",
      "core", "receivers"⟩ (by decide)
  rw [hbase, hpl] at h3
  have h4 := h.2.2.2 "go.opentelemetry.io/collector/receiver/otlpreceiver v__VERSION__"
    ("go.opentelemetry.io/collector/receiver/otlpreceiver v").data ([] : List Char)
    (by decide) (by decide) (by decide)
  exact ⟨by decide, h3 "0.122.0", h3 "0.123.0", h4.1, h4.2 (by decide)⟩

/-! ## Resolution partitions the parsed names -/

/-- The name recorded by one resolution step: the identity's name when
resolved, the unresolved name otherwise. -/
def resolvedNameOf : ComponentInfo ⊕ String → String
  | .inl info => info.name
  | .inr u => u

theorem lookup_eq (reg : Registry) (ct n v : String) :
    ComponentRegistry.lookup reg ct n v =
      match assocLookup ((assocLookup reg (pluralize ct)).getD []) (baseName n) with
      | some component =>
          some ⟨component.name, applyVersion component.gomod v, component.source,
                component.componentType⟩
      | none => none := rfl

theorem lookup_loaded_name (fileData : RegFileData) (ct n v : String)
    (info : ComponentInfo)
    (hsome : ComponentRegistry.lookup (loadComponents fileData) ct n v = some info) :
    info.name = baseName n := by
  rw [lookup_eq] at hsome
  rcases h : assocLookup ((assocLookup (loadComponents fileData) (pluralize ct)).getD [])
      (baseName n) with _ | e
  · rw [h] at hsome
    cases hsome
  · rw [h] at hsome
    cases hsome
    exact (loadComponents_entry fileData (pluralize ct) (baseName n) e h).1

theorem resolveName_keeps_name (fileData : RegFileData)
    (custom : List (String × String)) (version ct n : String)
    (hbase : baseName n = n) :
    resolvedNameOf (resolveName (loadComponents fileData) custom version ct n) = n := by
  unfold resolveName
  rcases hc : assocLookup custom n with _ | tmpl
  · rcases hl : ComponentRegistry.lookup (loadComponents fileData) ct n version with _ | info
    · simp [resolvedNameOf]
    · have := lookup_loaded_name fileData ct n version info hl
      simp [resolvedNameOf, this, hbase]
  · simp [resolvedNameOf]

theorem resolveList_count (fileData : RegFileData)
    (custom : List (String × String)) (version ct : String) :
    ∀ names : List String, (∀ n ∈ names, baseName n = n) → ∀ m : String,
      ((resolveList (loadComponents fileData) custom version ct names).1.map
        ComponentInfo.name).count m +
      ((resolveList (loadComponents fileData) custom version ct names).2).count m =
      names.count m := by
  intro names
  induction names with
  | nil => intro _ m; simp [resolveList]
  | cons n ns ih =>
    intro hbase m
    have hn := resolveName_keeps_name fileData custom version ct n (hbase n (by simp))
    have ihm := ih (fun x hx => hbase x (by simp [hx])) m
    rcases hr : resolveName (loadComponents fileData) custom version ct n with info | u
    · have hname : info.name = n := by
        rw [hr] at hn
        exact hn
      simp only [resolveList, hr, List.map_cons, List.count_cons, hname]
      omega
    · have hname : u = n := by
        rw [hr] at hn
        exact hn
      simp only [resolveList, hr, List.count_cons, hname]
      omega

/-- Per-category partition contract: the resolved names and the unresolved
names together account for each parsed name exactly (counted with
multiplicity), their membership union is the parsed set and, for
duplicate-free parsed input, they are disjoint. -/
def partitionsExactly (names : List String) (res : List ComponentInfo)
    (unres : List String) : Prop :=
  (∀ m : String, (res.map ComponentInfo.name).count m + unres.count m = names.count m) ∧
  (∀ m : String, (m ∈ res.map ComponentInfo.name ∨ m ∈ unres) ↔ m ∈ names) ∧
  (∀ m : String, ¬ (m ∈ res.map ComponentInfo.name ∧ m ∈ unres))

theorem resolveList_partitions (fileData : RegFileData)
    (custom : List (String × String)) (version ct : String) (names : List String)
    (hnd : names.Nodup) (hbase : ∀ n ∈ names, baseName n = n) :
    partitionsExactly names
      (resolveList (loadComponents fileData) custom version ct names).1
      (resolveList (loadComponents fileData) custom version ct names).2 := by
  have hcount := resolveList_count fileData custom version ct names hbase
  refine ⟨hcount, ?_, ?_⟩
  · intro m
    constructor
    · intro hm
      apply List.count_pos_iff.mp
      have := hcount m
      rcases hm with hm | hm
      · have := List.count_pos_iff.mpr hm
        omega
      · have := List.count_pos_iff.mpr hm
        omega
    · intro hm
      have hpos := List.count_pos_iff.mpr hm
      have := hcount m
      by_cases h1 : 0 < ((resolveList (loadComponents fileData) custom version ct
          names).1.map ComponentInfo.name).count m
      · exact Or.inl (List.count_pos_iff.mp h1)
      · refine Or.inr (List.count_pos_iff.mp ?_)
        omega
  · intro m ⟨hm1, hm2⟩
    have hle := List.nodup_iff_count_le_one.mp hnd m
    have h1 := List.count_pos_iff.mpr hm1
    have h2 := List.count_pos_iff.mpr hm2
    have := hcount m
    omega

/-- C3: for every loaded registry, every parsed component set (per the data
model: duplicate-free base names in each category), every version and every
custom-override mapping, resolution partitions each category's parsed names
exactly between the resolved list and the unresolved list: no name is
dropped, duplicated, or placed in both. -/
theorem resolve_components_partition
    (fileData : RegFileData) (parsed : ParsedComponents) (version : String)
    (customMappings : Option (List (String × List (String × String))))
    (h1 : parsed.receivers.Nodup) (h2 : ∀ n ∈ parsed.receivers, baseName n = n)
    (h3 : parsed.processors.Nodup) (h4 : ∀ n ∈ parsed.processors, baseName n = n)
    (h5 : parsed.exporters.Nodup) (h6 : ∀ n ∈ parsed.exporters, baseName n = n)
    (h7 : parsed.extensions.Nodup) (h8 : ∀ n ∈ parsed.extensions, baseName n = n)
    (h9 : parsed.connectors.Nodup) (h10 : ∀ n ∈ parsed.connectors, baseName n = n) :
    partitionsExactly parsed.receivers
      (resolveComponents (loadComponents fileData) parsed version customMappings).receivers
      (resolveComponents (loadComponents fileData) parsed version customMappings).unresolvedReceivers ∧
    partitionsExactly parsed.processors
      (resolveComponents (loadComponents fileData) parsed version customMappings).processors
      (resolveComponents (loadComponents fileData) parsed version customMappings).unresolvedProcessors ∧
    partitionsExactly parsed.exporters
      (resolveComponents (loadComponents fileData) parsed version customMappings).exporters
      (resolveComponents (loadComponents fileData) parsed version customMappings).unresolvedExporters ∧
    partitionsExactly parsed.extensions
      (resolveComponents (loadComponents fileData) parsed version customMappings).extensions
      (resolveComponents (loadComponents fileData) parsed version customMappings).unresolvedExtensions ∧
    partitionsExactly parsed.connectors
      (resolveComponents (loadComponents fileData) parsed version customMappings).connectors
      (resolveComponents (loadComponents fileData) parsed version customMappings).unresolvedConnectors :=
  ⟨resolveList_partitions fileData (customFor customMappings "receivers") version
      "receivers" parsed.receivers h1 h2,
   resolveList_partitions fileData (customFor customMappings "processors") version
      "processors" parsed.processors h3 h4,
   resolveList_partitions fileData (customFor customMappings "exporters") version
      "exporters" parsed.exporters h5 h6,
   resolveList_partitions fileData (customFor customMappings "extensions") version
      "extensions" parsed.extensions h7 h8,
   resolveList_partitions fileData (customFor customMappings "connectors") version
      "connectors" parsed.connectors h9 h10⟩

/-- Witness for C3: resolving the parsed receivers `otlp` (known) and
`unknown_widget` (unknown) against a one-entry registry accounts for both
names exactly once, with `unknown_widget` unresolved and not resolved. -/
theorem resolve_components_partition_witness :
    (["otlp", "unknown_widget"] : List String).Nodup ∧
    (∀ n ∈ (["otlp", "unknown_widget"] : List String), baseName n = n) ∧
    (((resolveComponents (loadComponents
        [("receivers", [("otlp",
          ⟨"go.opentelemetry.io/collector/receiver/otlpreceiver v__VERSION__", some "core"⟩)])])
        ⟨["otlp", "unknown_widget"], [], [], [], []⟩ "0.122.0" none).receivers.map
          ComponentInfo.name).count "unknown_widget" +
      ((resolveComponents (loadComponents
        [("receivers", [("otlp",
          ⟨"go.opentelemetry.io/collector/receiver/otlpreceiver v__VERSION__", some "core"⟩)])])
        ⟨["otlp", "unknown_widget"], [], [], [], []⟩ "0.122.0" none).unresolvedReceivers).count
          "unknown_widget" = 1) ∧
    ¬ ("unknown_widget" ∈ ((resolveComponents (loadComponents
        [("receivers", [("otlp",
          ⟨"go.opentelemetry.io/collector/receiver/otlpreceiver v__VERSION__", some "core"⟩)])])
        ⟨["otlp", "unknown_widget"], [], [], [], []⟩ "0.122.0" none).receivers.map
          ComponentInfo.name) ∧
       "unknown_widget" ∈ (resolveComponents (loadComponents
        [("receivers", [("otlp",
          ⟨"go.opentelemetry.io/collector/receiver/otlpreceiver v__VERSION__", some "core"⟩)])])
        ⟨["otlp", "unknown_widget"], [], [], [], []⟩ "0.122.0" none).unresolvedReceivers) := by
  have h := resolve_components_partition
    [("receivers", [("otlp",
      ⟨"go.opentelemetry.io/collector/receiver/otlpreceiver v__VERSION__", some "core"⟩)])]
    ⟨["otlp", "unknown_widget"], [], [], [], []⟩ "0.122.0" none
    (by decide) (by decide) (by decide) (by decide) (by decide)
    (by decide) (by decide) (by decide) (by decide) (by decide)
  refine ⟨by decide, by decide, ?_, h.1.2.2 "unknown_widget"⟩
  have := h.1.1 "unknown_widget"
  simpa using this

/-! ## Manifest generator (builder/src/manifest_generator.py) -/

/-- `ManifestConfig`: configuration for manifest generation (defaults as in
the source). -/
structure ManifestConfig where
  module : String := "github.com/custom/otelcol-distribution"
  name : String := "otelcol-custom"
  description : String := "Custom OpenTelemetry Collector distribution"
  version : String := "1.0.0"
  outputPath : String := "./_build"
  otelVersion : String := "0.121.0"
  includeProviders : Bool := true
  includeReplaces : Bool := true
  confResolverDefaultUriScheme : String := "env"

/-- The fixed provider list `DEFAULT_PROVIDERS`. -/
def DEFAULT_PROVIDERS : List String :=
  ["go.opentelemetry.io/collector/confmap/provider/envprovider",
   "go.opentelemetry.io/collector/confmap/provider/fileprovider",
   "go.opentelemetry.io/collector/confmap/provider/httpprovider",
   "go.opentelemetry.io/collector/confmap/provider/httpsprovider",
   "go.opentelemetry.io/collector/confmap/provider/yamlprovider"]

/-- The fixed replace directives `DEFAULT_REPLACES` (old, new). -/
def DEFAULT_REPLACES : List (String × String) :=
  [("github.com/googleapis/gnostic v0.5.6", "github.com/googleapis/gnostic v0.5.5"),
   ("github.com/docker/go-connections v0.4.1-0.20210727194412-58542c764a11",
    "github.com/docker/go-connections v0.4.0"),
   ("github.com/mattn/go-ieproxy", "github.com/mattn/go-ieproxy v0.0.1"),
   ("github.com/openshift/api",
    "github.com/openshift/api v0.0.0-20230726162818-81f778f3b3ec")]

/-- Python `str.split(sep)` for a single-character separator, on character
lists. -/
def splitOnSep (sep : Char) : List Char → List (List Char)
  | [] => [[]]
  | c :: rest =>
      if c = sep then [] :: splitOnSep sep rest
      else
        match splitOnSep sep rest with
        | h :: t => (c :: h) :: t
        | [] => [[c]]

/-- Nonempty all-digit character list to its numeric value. -/
def digitsToNat : List Char → Option Nat
  | [] => none
  | l =>
      if l.all Char.isDigit then
        some (l.foldl (fun a c => a * 10 + (c.toNat - 48)) 0)
      else none

/-- Python `int(s)` on a trimmed numeric literal (an optional sign followed
by decimal digits; whitespace and underscore forms are accepted by Python
but exercised nowhere in this program's data). -/
def pyInt (l : List Char) : Option Int :=
  match l with
  | '-' :: rest => (digitsToNat rest).map fun n => -(n : Int)
  | '+' :: rest => (digitsToNat rest).map fun n => (n : Int)
  | _ => (digitsToNat l).map fun n => (n : Int)

/-- `ManifestGenerator._format_components`: plain gomod entries. -/
def formatComponents (components : List ComponentInfo) : List Yaml :=
  components.map fun c => .map [("gomod", .str c.gomod)]

/-- `any(bp["gomod"] in r.get("gomod", "") for r in result)`: the dedupe
probe of `_format_components_with_bindplane`, short-circuiting like `any`. -/
def anyGomodContains (g : Yaml) (rs : List Yaml) : Except PyErr Bool :=
  rs.foldlM
    (fun found r => do
      if found then
        .ok true
      else do
        let rg ← pyGet r "gomod" (.str "")
        pyInOp g rg)
    false

/-- `ManifestGenerator._format_components_with_bindplane`: the user's
resolved entries followed by the extra-catalog entries for the category,
skipping entries whose gomod already occurs as a substring of an existing
entry.  `bindplane` is the loaded extra-catalog document
(`self._bindplane_components`), `none` when loading failed. -/
def formatComponentsWithBindplane (bindplane : Option Yaml)
    (components : List ComponentInfo) (componentType : String) :
    Except PyErr (List Yaml) := do
  let result := formatComponents components
  match bindplane with
  | none => .ok result
  | some bpY =>
      if bpY.truthy then do
        let hasType ← pyContains bpY componentType
        if hasType then do
          let bpComponents ← pySubscript bpY componentType
          let items ← pyToIter bpComponents
          items.foldlM
            (fun acc bpItem => do
              let hasG ← pyContains bpItem "gomod"
              if hasG then do
                let g ← pySubscript bpItem "gomod"
                let dup ← anyGomodContains g acc
                if dup then .ok acc else .ok (acc ++ [Yaml.map [("gomod", g)]])
              else .ok acc)
            result
        else .ok result
      else .ok result

/-- `ManifestGenerator._format_providers`: five provider entries versioned by
the minor-version offset formula. -/
def formatProviders (config : ManifestConfig) : Except PyErr (List Yaml) := do
  let parts := splitOnSep '.' config.otelVersion.data
  let providerVersion ← (
    match parts with
    | _ :: second :: _ =>
        match pyInt second with
        | some minor =>
            pure (if minor - 94 > 0 then "1." ++ toString (minor - 94) ++ ".0" else "1.0.0")
        | none => .error .valueError
    | _ => pure "1.0.0" : Except PyErr String)
  pure (DEFAULT_PROVIDERS.map fun p => .map [("gomod", .str (p ++ " v" ++ providerVersion))])

/-- String rendering of a YAML scalar interpolated into an f-string.  All
replace entries in this program's data are strings; the rendering of other
shapes is not observable by any claim. -/
def pyStrOf : Yaml → String
  | .str s => s
  | _ => ""

/-- `ManifestGenerator._format_replaces`: the fixed directives, extended with
the extra catalog's `replaces` entries, deduplicated by exact string
equality. -/
def formatReplaces (bindplane : Option Yaml) : Except PyErr (List String) := do
  let base := DEFAULT_REPLACES.map fun r => r.1 ++ " => " ++ r.2
  match bindplane with
  | none => .ok base
  | some bpY =>
      if bpY.truthy then do
        let hasR ← pyContains bpY "replaces"
        if hasR then do
          let rs ← pySubscript bpY "replaces"
          let items ← pyToIter rs
          items.foldlM
            (fun acc r => do
              let old ← pySubscript r "old"
              let new ← pySubscript r "new"
              let replaceStr := pyStrOf old ++ " => " ++ pyStrOf new
              if replaceStr ∈ acc then .ok acc else .ok (acc ++ [replaceStr]))
            base
        else .ok base
      else .ok base

/-- Keep a category entry: Python `if not manifest[key]: del manifest[key]`
removes exactly the empty-list values. -/
def nonEmptyArrEntry (p : String × Yaml) : Bool :=
  match p.2 with
  | .arr [] => false
  | _ => true

/-- `ManifestGenerator.generate`, producing the structured manifest
(`yaml_dict`).  Keys are inserted in source order (dist, conf_resolver, the
four merged category sections, connectors when non-empty, providers,
replaces), and the four merged category sections are deleted afterwards when
empty. -/
def ManifestGenerator.generate (resolved : ResolvedComponents)
    (config : ManifestConfig) (bindplane : Option Yaml) : Except PyErr Yaml := do
  let dist := Yaml.map
    [("module", .str config.module), ("name", .str config.name),
     ("description", .str config.description), ("version", .str config.version),
     ("output_path", .str config.outputPath)]
  let confResolver := Yaml.map
    [("default_uri_scheme", .str config.confResolverDefaultUriScheme)]
  let exts ← formatComponentsWithBindplane bindplane resolved.extensions "extensions"
  let rcvs ← formatComponentsWithBindplane bindplane resolved.receivers "receivers"
  let procs ← formatComponentsWithBindplane bindplane resolved.processors "processors"
  let exps ← formatComponentsWithBindplane bindplane resolved.exporters "exporters"
  let connectorEntries :=
    if !resolved.connectors.isEmpty then
      [("connectors", Yaml.arr (formatComponents resolved.connectors))]
    else []
  let categoryEntries :=
    ([("extensions", Yaml.arr exts), ("receivers", Yaml.arr rcvs),
      ("processors", Yaml.arr procs), ("exporters", Yaml.arr exps)]).filter
      nonEmptyArrEntry
  let providerEntries ← (
    if config.includeProviders then do
      let ps ← formatProviders config
      pure [("providers", Yaml.arr ps)]
    else pure [] : Except PyErr (List (String × Yaml)))
  let replaceEntries ← (
    if config.includeReplaces then do
      let rs ← formatReplaces bindplane
      pure [("replaces", Yaml.arr (rs.map Yaml.str))]
    else pure [] : Except PyErr (List (String × Yaml)))
  .ok (Yaml.map ([("dist", dist), ("conf_resolver", confResolver)] ++
    categoryEntries ++ connectorEntries ++ providerEntries ++ replaceEntries))

/-! ## Association-list lemmas for the generated manifest -/

theorem assocLookup_append {α : Type} (k : String) :
    ∀ l1 l2 : List (String × α),
      assocLookup (l1 ++ l2) k =
        match assocLookup l1 k with
        | some v => some v
        | none => assocLookup l2 k := by
  intro l1 l2
  induction l1 with
  | nil => simp [assocLookup]
  | cons p rest ih =>
    rcases p with ⟨k0, v0⟩
    show assocLookup ((k0, v0) :: (rest ++ l2)) k = _
    by_cases h : k0 == k
    · simp [assocLookup, h]
    · simp only [assocLookup, if_neg h]
      exact ih

theorem assocLookup_none_of_keys {α : Type} (k : String) :
    ∀ l : List (String × α), (∀ p ∈ l, p.1 ≠ k) → assocLookup l k = none := by
  intro l
  induction l with
  | nil => intro _; rfl
  | cons p rest ih =>
    intro h
    have hk : ¬ (p.1 == k) := by
      simp only [beq_iff_eq]
      exact h p (by simp)
    rcases p with ⟨k0, v0⟩
    simp only [assocLookup, if_neg hk]
    exact ih fun q hq => h q (by simp [hq])

theorem assocLookup_filter (p : String × Yaml → Bool) :
    ∀ l : List (String × Yaml), (l.map Prod.fst).Nodup → ∀ k,
      assocLookup (l.filter p) k =
        match assocLookup l k with
        | some v => if p (k, v) then some v else none
        | none => none := by
  intro l
  induction l with
  | nil => intro _ k; simp [assocLookup]
  | cons q rest ih =>
    intro hnd k
    rcases q with ⟨k0, v0⟩
    have hnd' : (rest.map Prod.fst).Nodup := (List.nodup_cons.mp hnd).2
    have hk0 : k0 ∉ rest.map Prod.fst := (List.nodup_cons.mp hnd).1
    by_cases hk : k0 == k
    · have hkk : k0 = k := eq_of_beq hk
      subst hkk
      rw [List.filter_cons]
      by_cases hp : p (k0, v0)
      · simp [assocLookup, hp]
      · simp only [hp, Bool.false_eq_true, if_false, assocLookup]
        have hnone : assocLookup (rest.filter p) k0 = none := by
          apply assocLookup_none_of_keys
          intro q hq
          have hq' : q ∈ rest := List.mem_of_mem_filter hq
          intro hqk
          exact hk0 (hqk ▸ List.mem_map_of_mem Prod.fst hq')
        rw [hnone]
        simp [hp]
    · rw [List.filter_cons]
      by_cases hp : p (k0, v0)
      · simp only [hp, if_true, assocLookup, hk]
        exact ih hnd' k
      · simp only [hp, Bool.false_eq_true, if_false, assocLookup, hk]
        exact ih hnd' k

/-- C6: for every generation config whose primary version has at least two
dot-separated fields and whose minor field parses as the integer m, the
providers section is exactly the five fixed provider modules, each versioned
`1.(m-94).0` when `m - 94` is positive and `1.0.0` otherwise. -/
theorem providers_version_formula (config : ManifestConfig) (m : Int)
    (p0 second : List Char) (rest : List (List Char))
    (hsplit : splitOnSep '.' config.otelVersion.data = p0 :: second :: rest)
    (hint : pyInt second = some m) :
    formatProviders config = .ok (DEFAULT_PROVIDERS.map fun p =>
      .map [("gomod", .str (p ++ " v" ++
        (if m - 94 > 0 then "1." ++ toString (m - 94) ++ ".0" else "1.0.0")))]) ∧
    (DEFAULT_PROVIDERS.map fun p =>
      Yaml.map [("gomod", Yaml.str (p ++ " v" ++
        (if m - 94 > 0 then "1." ++ toString (m - 94) ++ ".0" else "1.0.0")))]).length
      = 5 := by
  constructor
  · unfold formatProviders
    rw [hsplit]
    simp only [hint]
    rfl
  · simp [DEFAULT_PROVIDERS]

/-- Witness for C6 at the default config (primary version 0.121.0, minor
121): all five providers are versioned v1.27.0. -/
theorem providers_version_formula_witness :
    splitOnSep '.' ("0.121.0" : String).data = [['0'], ['1', '2', '1'], ['0']] ∧
    pyInt ['1', '2', '1'] = some 121 ∧
    formatProviders {} = .ok
      [.map [("gomod", .str "go.opentelemetry.io/collector/confmap/provider/envprovider v1.27.0")],
       .map [("gomod", .str "go.opentelemetry.io/collector/confmap/provider/fileprovider v1.27.0")],
       .map [("gomod", .str "go.opentelemetry.io/collector/confmap/provider/httpprovider v1.27.0")],
       .map [("gomod", .str "go.opentelemetry.io/collector/confmap/provider/httpsprovider v1.27.0")],
       .map [("gomod", .str "go.opentelemetry.io/collector/confmap/provider/yamlprovider v1.27.0")]] := by
  have h := providers_version_formula {} 121 ['0'] ['1', '2', '1'] [['0']]
    (by decide) (by decide)
  refine ⟨by decide, by decide, ?_⟩
  rw [h.1]
  rfl

theorem except_bind_ok {α β : Type} (x : Except PyErr α) (f : α → Except PyErr β) (b : β)
    (h : (x >>= f) = .ok b) : ∃ a, x = .ok a ∧ f a = .ok b := by
  cases x with
  | error e => simp [Bind.bind, Except.bind] at h
  | ok a =>
      refine ⟨a, rfl, ?_⟩
      simpa [Bind.bind, Except.bind] using h

theorem assocLookup_mem {α : Type} (k : String) (v : α) :
    ∀ l : List (String × α), assocLookup l k = some v → (k, v) ∈ l := by
  intro l
  induction l with
  | nil => intro h; cases h
  | cons p rest ih =>
    rcases p with ⟨k0, v0⟩
    intro h
    simp only [assocLookup] at h
    by_cases hk : k0 == k
    · rw [if_pos hk] at h
      cases h
      have : k0 = k := eq_of_beq hk
      subst this
      simp
    · rw [if_neg hk] at h
      exact List.mem_cons_of_mem _ (ih h)

theorem assocLookup_append_none {α : Type} (k : String) (l1 l2 : List (String × α))
    (h : assocLookup l1 k = none) : assocLookup (l1 ++ l2) k = assocLookup l2 k := by
  rw [assocLookup_append, h]

theorem assocLookup_append_some {α : Type} (k : String) (l1 l2 : List (String × α)) (v : α)
    (h : assocLookup l1 k = some v) : assocLookup (l1 ++ l2) k = some v := by
  rw [assocLookup_append, h]

theorem generate_lookup (resolved : ResolvedComponents)
    (config : ManifestConfig) (bindplane : Option Yaml) (m : Yaml)
    (exts rcvs procs exps : List Yaml)
    (hx1 : formatComponentsWithBindplane bindplane resolved.extensions "extensions" = .ok exts)
    (hx2 : formatComponentsWithBindplane bindplane resolved.receivers "receivers" = .ok rcvs)
    (hx3 : formatComponentsWithBindplane bindplane resolved.processors "processors" = .ok procs)
    (hx4 : formatComponentsWithBindplane bindplane resolved.exporters "exporters" = .ok exps)
    (hgen : ManifestGenerator.generate resolved config bindplane = .ok m) :
    ∃ es, m = .map es ∧
      (assocLookup es "extensions" = if exts.isEmpty then none else some (Yaml.arr exts)) ∧
      (assocLookup es "receivers" = if rcvs.isEmpty then none else some (Yaml.arr rcvs)) ∧
      (assocLookup es "processors" = if procs.isEmpty then none else some (Yaml.arr procs)) ∧
      (assocLookup es "exporters" = if exps.isEmpty then none else some (Yaml.arr exps)) ∧
      (assocLookup es "connectors" =
        if resolved.connectors.isEmpty then none
        else some (Yaml.arr (formatComponents resolved.connectors))) ∧
      (assocLookup es "service" = none) := by
  simp only [ManifestGenerator.generate] at hgen
  obtain ⟨exts', hx1', hgen⟩ := except_bind_ok _ _ _ hgen
  obtain ⟨rcvs', hx2', hgen⟩ := except_bind_ok _ _ _ hgen
  obtain ⟨procs', hx3', hgen⟩ := except_bind_ok _ _ _ hgen
  obtain ⟨exps', hx4', hgen⟩ := except_bind_ok _ _ _ hgen
  obtain ⟨provE, hx5, hgen⟩ := except_bind_ok _ _ _ hgen
  obtain ⟨replE, hx6, hgen⟩ := except_bind_ok _ _ _ hgen
  rw [hx1] at hx1'
  injection hx1' with he
  subst he
  rw [hx2] at hx2'
  injection hx2' with he
  subst he
  rw [hx3] at hx3'
  injection hx3' with he
  subst he
  rw [hx4] at hx4'
  injection hx4' with he
  subst he
  injection hgen with hm
  subst hm
  have hprovKeys : ∀ p ∈ provE, p.1 = "providers" := by
    by_cases hc : config.includeProviders
    · rw [if_pos hc] at hx5
      obtain ⟨ps, _, h2⟩ := except_bind_ok _ _ _ hx5
      simp only [pure, Except.pure] at h2
      injection h2 with h2
      rw [← h2]
      simp
    · rw [if_neg hc] at hx5
      simp only [pure, Except.pure] at hx5
      injection hx5 with h2
      rw [← h2]
      simp
  have hreplKeys : ∀ p ∈ replE, p.1 = "replaces" := by
    by_cases hc : config.includeReplaces
    · rw [if_pos hc] at hx6
      obtain ⟨rs, _, h2⟩ := except_bind_ok _ _ _ hx6
      simp only [pure, Except.pure] at h2
      injection h2 with h2
      rw [← h2]
      simp
    · rw [if_neg hc] at hx6
      simp only [pure, Except.pure] at hx6
      injection hx6 with h2
      rw [← h2]
      simp
  refine ⟨_, rfl, ?_⟩
  simp only [List.append_assoc]
  set F : List (String × Yaml) :=
    [("dist", Yaml.map
        [("module", Yaml.str config.module), ("name", Yaml.str config.name),
         ("description", Yaml.str config.description), ("version", Yaml.str config.version),
         ("output_path", Yaml.str config.outputPath)]),
     ("conf_resolver", Yaml.map
        [("default_uri_scheme", Yaml.str config.confResolverDefaultUriScheme)])] with hF
  set catL : List (String × Yaml) :=
    [("extensions", Yaml.arr exts), ("receivers", Yaml.arr rcvs),
     ("processors", Yaml.arr procs), ("exporters", Yaml.arr exps)] with hcatL
  set connE : List (String × Yaml) :=
    (if (!resolved.connectors.isEmpty) = true then
      [("connectors", Yaml.arr (formatComponents resolved.connectors))]
    else []) with hconnE
  have hfrontN : ∀ k' : String, "dist" ≠ k' → "conf_resolver" ≠ k' →
      assocLookup F k' = none := by
    intro k' h1 h2
    rw [hF]
    simp [assocLookup, beq_iff_eq, h1, h2]
  have hndk : (catL.map Prod.fst).Nodup := by
    rw [hcatL]
    simp
  have hconnKeys : ∀ p ∈ connE, p.1 = "connectors" := by
    rw [hconnE]
    split <;> simp
  have hconnN : ∀ k' : String, "connectors" ≠ k' → assocLookup connE k' = none := by
    intro k' h
    exact assocLookup_none_of_keys _ _ fun p hp => by rw [hconnKeys p hp]; exact h
  have hprovN : ∀ k' : String, "providers" ≠ k' → assocLookup provE k' = none := by
    intro k' h
    exact assocLookup_none_of_keys _ _ fun p hp => by rw [hprovKeys p hp]; exact h
  have hreplN : ∀ k' : String, "replaces" ≠ k' → assocLookup replE k' = none := by
    intro k' h
    exact assocLookup_none_of_keys _ _ fun p hp => by rw [hreplKeys p hp]; exact h
  have hcatKeysN : ∀ k' : String, "extensions" ≠ k' → "receivers" ≠ k' →
      "processors" ≠ k' → "exporters" ≠ k' →
      assocLookup (catL.filter nonEmptyArrEntry) k' = none := by
    intro k' h1 h2 h3 h4
    apply assocLookup_none_of_keys
    intro p hp
    have hin := List.mem_of_mem_filter hp
    rw [hcatL] at hin
    simp only [List.mem_cons, List.mem_singleton] at hin
    rcases hin with h | h | h | h | h
    · rw [h]; exact h1
    · rw [h]; exact h2
    · rw [h]; exact h3
    · rw [h]; exact h4
    · cases h
  have catStep : ∀ (key : String) (xs : List Yaml) (tail : List (String × Yaml)),
      assocLookup catL key = some (Yaml.arr xs) →
      assocLookup (catL.filter nonEmptyArrEntry ++ tail) key =
        if xs.isEmpty then assocLookup tail key else some (Yaml.arr xs) := by
    intro key xs tail hsc
    have hcatE := assocLookup_filter nonEmptyArrEntry catL hndk key
    rw [hsc] at hcatE
    rcases xs with _ | ⟨x, xs'⟩
    · simp only [nonEmptyArrEntry, Bool.false_eq_true, if_false] at hcatE
      rw [assocLookup_append_none _ _ _ hcatE]
      simp
    · simp only [nonEmptyArrEntry, if_true] at hcatE
      rw [assocLookup_append_some _ _ _ _ hcatE]
      simp
  refine ⟨?_, ?_, ?_, ?_, ?_, ?_⟩
  · rw [assocLookup_append_none _ _ _ (hfrontN _ (by decide) (by decide))]
    rw [catStep "extensions" exts _ (by rw [hcatL]; simp [assocLookup])]
    rcases exts with _ | ⟨x, xs⟩
    · rw [assocLookup_append_none _ _ _ (hconnN _ (by decide)),
        assocLookup_append_none _ _ _ (hprovN _ (by decide)),
        hreplN _ (by decide)]
    · simp
  · rw [assocLookup_append_none _ _ _ (hfrontN _ (by decide) (by decide))]
    rw [catStep "receivers" rcvs _ (by rw [hcatL]; simp [assocLookup])]
    rcases rcvs with _ | ⟨x, xs⟩
    · rw [assocLookup_append_none _ _ _ (hconnN _ (by decide)),
        assocLookup_append_none _ _ _ (hprovN _ (by decide)),
        hreplN _ (by decide)]
    · simp
  · rw [assocLookup_append_none _ _ _ (hfrontN _ (by decide) (by decide))]
    rw [catStep "processors" procs _ (by rw [hcatL]; simp [assocLookup])]
    rcases procs with _ | ⟨x, xs⟩
    · rw [assocLookup_append_none _ _ _ (hconnN _ (by decide)),
        assocLookup_append_none _ _ _ (hprovN _ (by decide)),
        hreplN _ (by decide)]
    · simp
  · rw [assocLookup_append_none _ _ _ (hfrontN _ (by decide) (by decide))]
    rw [catStep "exporters" exps _ (by rw [hcatL]; simp [assocLookup])]
    rcases exps with _ | ⟨x, xs⟩
    · rw [assocLookup_append_none _ _ _ (hconnN _ (by decide)),
        assocLookup_append_none _ _ _ (hprovN _ (by decide)),
        hreplN _ (by decide)]
    · simp
  · rw [assocLookup_append_none _ _ _ (hfrontN _ (by decide) (by decide)),
      assocLookup_append_none _ _ _ (hcatKeysN _ (by decide) (by decide) (by decide) (by decide))]
    rw [hconnE]
    rcases hcs : resolved.connectors with _ | ⟨c0, cs⟩
    · simp only [List.isEmpty_nil, Bool.not_true, Bool.false_eq_true, if_false,
        List.nil_append, if_true]
      rw [assocLookup_append_none _ _ _ (hprovN _ (by decide)), hreplN _ (by decide)]
    · simp only [List.isEmpty_cons, Bool.not_false, if_true, Bool.false_eq_true, if_false]
      simp [assocLookup]
  · rw [assocLookup_append_none _ _ _ (hfrontN _ (by decide) (by decide)),
      assocLookup_append_none _ _ _ (hcatKeysN _ (by decide) (by decide) (by decide) (by decide)),
      assocLookup_append_none _ _ _ (hconnN _ (by decide)),
      assocLookup_append_none _ _ _ (hprovN _ (by decide)),
      hreplN _ (by decide)]

/-- C7: for every resolved input, generation config and extra-catalog value,
the generated manifest's structured form maps no category key to an empty
list; a merged category that ends up empty is absent from the document; the
connectors key is present exactly when the resolved connector list is
non-empty and then holds exactly the resolved connector modules (no
extra-catalog entries are merged into connectors). -/
theorem generate_categories_contract (resolved : ResolvedComponents)
    (config : ManifestConfig) (bindplane : Option Yaml) (m : Yaml)
    (hgen : ManifestGenerator.generate resolved config bindplane = .ok m) :
    ∃ es, m = .map es ∧
      (∀ k ∈ (["receivers", "processors", "exporters", "extensions",
               "connectors"] : List String),
        ∀ v, assocLookup es k = some v → ∃ l, v = Yaml.arr l ∧ l ≠ []) ∧
      (assocLookup es "connectors" =
        if resolved.connectors.isEmpty then none
        else some (Yaml.arr (formatComponents resolved.connectors))) ∧
      (∀ l, formatComponentsWithBindplane bindplane resolved.extensions "extensions" = .ok l →
        (assocLookup es "extensions" = none ↔ l = [])) ∧
      (∀ l, formatComponentsWithBindplane bindplane resolved.receivers "receivers" = .ok l →
        (assocLookup es "receivers" = none ↔ l = [])) ∧
      (∀ l, formatComponentsWithBindplane bindplane resolved.processors "processors" = .ok l →
        (assocLookup es "processors" = none ↔ l = [])) ∧
      (∀ l, formatComponentsWithBindplane bindplane resolved.exporters "exporters" = .ok l →
        (assocLookup es "exporters" = none ↔ l = [])) := by
  have hgen2 := hgen
  simp only [ManifestGenerator.generate] at hgen2
  obtain ⟨exts, hx1, hgen2⟩ := except_bind_ok _ _ _ hgen2
  obtain ⟨rcvs, hx2, hgen2⟩ := except_bind_ok _ _ _ hgen2
  obtain ⟨procs, hx3, hgen2⟩ := except_bind_ok _ _ _ hgen2
  obtain ⟨exps, hx4, hgen2⟩ := except_bind_ok _ _ _ hgen2
  obtain ⟨es, hm, h1, h2, h3, h4, h5, h6⟩ :=
    generate_lookup resolved config bindplane m exts rcvs procs exps hx1 hx2 hx3 hx4 hgen
  refine ⟨es, hm, ?_, h5, ?_, ?_, ?_, ?_⟩
  · intro k hk v hv
    fin_cases hk
    · rw [h2] at hv
      rcases rcvs with _ | ⟨x, xs⟩
      · cases hv
      · simp only [List.isEmpty_cons, Bool.false_eq_true, if_false] at hv
        injection hv with hv
        exact ⟨x :: xs, hv.symm, by simp⟩
    · rw [h3] at hv
      rcases procs with _ | ⟨x, xs⟩
      · cases hv
      · simp only [List.isEmpty_cons, Bool.false_eq_true, if_false] at hv
        injection hv with hv
        exact ⟨x :: xs, hv.symm, by simp⟩
    · rw [h4] at hv
      rcases exps with _ | ⟨x, xs⟩
      · cases hv
      · simp only [List.isEmpty_cons, Bool.false_eq_true, if_false] at hv
        injection hv with hv
        exact ⟨x :: xs, hv.symm, by simp⟩
    · rw [h1] at hv
      rcases exts with _ | ⟨x, xs⟩
      · cases hv
      · simp only [List.isEmpty_cons, Bool.false_eq_true, if_false] at hv
        injection hv with hv
        exact ⟨x :: xs, hv.symm, by simp⟩
    · rw [h5] at hv
      rcases hcs : resolved.connectors with _ | ⟨c0, cs⟩
      · rw [hcs] at hv
        cases hv
      · rw [hcs] at hv
        simp only [List.isEmpty_cons, Bool.false_eq_true, if_false] at hv
        injection hv with hv
        exact ⟨formatComponents (c0 :: cs), hv.symm, by simp [formatComponents]⟩
  · intro l hl
    rw [hx1] at hl
    injection hl with hl
    subst hl
    rw [h1]
    rcases exts with _ | ⟨x, xs⟩ <;> simp
  · intro l hl
    rw [hx2] at hl
    injection hl with hl
    subst hl
    rw [h2]
    rcases rcvs with _ | ⟨x, xs⟩ <;> simp
  · intro l hl
    rw [hx3] at hl
    injection hl with hl
    subst hl
    rw [h3]
    rcases procs with _ | ⟨x, xs⟩ <;> simp
  · intro l hl
    rw [hx4] at hl
    injection hl with hl
    subst hl
    rw [h4]
    rcases exps with _ | ⟨x, xs⟩ <;> simp

/-- A demonstration resolved set: one receiver, one connector, everything
else empty. -/
def demoResolved7 : ResolvedComponents :=
  ⟨[⟨"otlp", "go.opentelemetry.io/collector/receiver/otlpreceiver v0.121.0", "core", "receivers"⟩],
   [], [], [],
   [⟨"spanmetrics",
     "github.com/open-telemetry/opentelemetry-collector-contrib/connector/spanmetricsconnector v0.121.0",
     "contrib", "connectors"⟩],
   [], [], [], [], []⟩

/-- The structured manifest generated from `demoResolved7` with the default
config and no extra catalog. -/
def demoEntries7 : List (String × Yaml) :=
  [("dist", .map
     [("module", .str "github.com/custom/otelcol-distribution"),
      ("name", .str "otelcol-custom"),
      ("description", .str "Custom OpenTelemetry Collector distribution"),
      ("version", .str "1.0.0"), ("output_path", .str "./_build")]),
   ("conf_resolver", .map [("default_uri_scheme", .str "env")]),
   ("receivers", .arr
     [.map [("gomod", .str "go.opentelemetry.io/collector/receiver/otlpreceiver v0.121.0")]]),
   ("connectors", .arr
     [.map [("gomod",
       .str "github.com/open-telemetry/opentelemetry-collector-contrib/connector/spanmetricsconnector v0.121.0")]]),
   ("providers", .arr
     [.map [("gomod", .str "go.opentelemetry.io/collector/confmap/provider/envprovider v1.27.0")],
      .map [("gomod", .str "go.opentelemetry.io/collector/confmap/provider/fileprovider v1.27.0")],
      .map [("gomod", .str "go.opentelemetry.io/collector/confmap/provider/httpprovider v1.27.0")],
      .map [("gomod", .str "go.opentelemetry.io/collector/confmap/provider/httpsprovider v1.27.0")],
      .map [("gomod", .str "go.opentelemetry.io/collector/confmap/provider/yamlprovider v1.27.0")]]),
   ("replaces", .arr
     [.str "github.com/googleapis/gnostic v0.5.6 => github.com/googleapis/gnostic v0.5.5",
      .str "github.com/docker/go-connections v0.4.1-0.20210727194412-58542c764a11 => github.com/docker/go-connections v0.4.0",
      .str "github.com/mattn/go-ieproxy => github.com/mattn/go-ieproxy v0.0.1",
      .str "github.com/openshift/api => github.com/openshift/api v0.0.0-20230726162818-81f778f3b3ec"])]

/-- Witness for C7: the manifest generated from `demoResolved7` omits the
empty extensions section, holds exactly the resolved connector under the
connectors key, and holds no empty category list. -/
theorem generate_categories_contract_witness :
    ManifestGenerator.generate demoResolved7 {} none = .ok (.map demoEntries7) ∧
    assocLookup demoEntries7 "connectors" =
      some (Yaml.arr (formatComponents demoResolved7.connectors)) ∧
    assocLookup demoEntries7 "extensions" = none ∧
    assocLookup demoEntries7 "receivers" ≠ some (Yaml.arr []) := by
  have hgen : ManifestGenerator.generate demoResolved7 {} none = .ok (.map demoEntries7) := by
    rfl
  obtain ⟨es, hm, hA, hB, hC, _, _, _⟩ :=
    generate_categories_contract demoResolved7 {} none (.map demoEntries7) hgen
  injection hm with hm
  subst hm
  refine ⟨hgen, ?_, ?_, ?_⟩
  · rw [hB]
    rfl
  · rw [(hC (formatComponents demoResolved7.extensions) (by rfl))]
    rfl
  · intro heq
    obtain ⟨l, hl, hne⟩ := hA "receivers" (by simp) _ heq
    injection hl with hl
    exact hne hl.symm

theorem except_bind_ok_eq {α β : Type} (a : α) (f : α → Except PyErr β) :
    (Except.ok a >>= f) = f a := rfl

theorem except_bind_error_eq {α β : Type} (e : PyErr) (f : α → Except PyErr β) :
    ((Except.error e : Except PyErr α) >>= f) = Except.error e := rfl

theorem pyGet_map (es : List (String × Yaml)) (key : String) (default : Yaml) :
    pyGet (.map es) key default = .ok ((assocLookup es key).getD default) := rfl

theorem extract_of_lookup_none (es : List (String × Yaml)) (sec : String)
    (h : assocLookup es sec = none) :
    extractComponentNames (.map es) sec = .ok [] := by
  unfold extractComponentNames
  rw [pyGet_map, h]
  rfl

theorem extract_of_lookup_cons (es : List (String × Yaml)) (sec : String)
    (x : Yaml) (xs : List Yaml)
    (h : assocLookup es sec = some (Yaml.arr (x :: xs))) :
    extractComponentNames (.map es) sec = .error .attributeError := by
  unfold extractComponentNames
  rw [pyGet_map, h]
  rfl

theorem validate_of_no_service (es : List (String × Yaml))
    (h : assocLookup es "service" = none) :
    validateAgainstService (.map es) ⟨[], [], [], [], []⟩ = .ok (⟨[], [], [], [], []⟩, []) := by
  unfold validateAgainstService
  rw [pyGet_map, h]
  rfl

/-- C2 (amended): re-parsing the generated manifest with the config parser
(no extra catalog) succeeds exactly when every resolved category is empty --
in which case no category section is present and the parse yields the empty
`ParsedComponents` -- and raises otherwise, because a present category
section holds a non-empty list, which `_extract_component_names` cannot
traverse. -/
theorem roundtrip_reparse_amended (resolved : ResolvedComponents)
    (config : ManifestConfig) (m : Yaml)
    (hgen : ManifestGenerator.generate resolved config none = .ok m) :
    ((ConfigParser.parse (ConfigParser.init m)).isOk = true ↔
      (resolved.receivers = [] ∧ resolved.processors = [] ∧ resolved.exporters = [] ∧
       resolved.extensions = [] ∧ resolved.connectors = [])) ∧
    ((resolved.receivers = [] ∧ resolved.processors = [] ∧ resolved.exporters = [] ∧
      resolved.extensions = [] ∧ resolved.connectors = []) →
      ConfigParser.parse (ConfigParser.init m) = .ok (⟨[], [], [], [], []⟩, [])) := by
  obtain ⟨es, hm, h1, h2, h3, h4, h5, h6⟩ :=
    generate_lookup resolved config none m
      (formatComponents resolved.extensions) (formatComponents resolved.receivers)
      (formatComponents resolved.processors) (formatComponents resolved.exporters)
      rfl rfl rfl rfl hgen
  subst hm
  show ((ConfigParser.parse (.map es)).isOk = true ↔ _) ∧ _
  rcases hrv : resolved.receivers with _ | ⟨r, rs⟩
  case cons =>
    have hcons : assocLookup es "receivers" =
        some (Yaml.arr (Yaml.map [("gomod", Yaml.str r.gomod)] :: formatComponents rs)) := by
      rw [h2, hrv]
      rfl
    have hex := extract_of_lookup_cons es "receivers" _ _ hcons
    have hparse : ConfigParser.parse (.map es) = .error .attributeError := by
      simp only [ConfigParser.parse, hex, except_bind_error_eq]
    constructor
    · rw [hparse]
      simp [Except.isOk, Except.toBool]
    · intro h
      simp at h
  case nil =>
  rcases hpv : resolved.processors with _ | ⟨r, rs⟩
  case cons =>
    have hcons : assocLookup es "processors" =
        some (Yaml.arr (Yaml.map [("gomod", Yaml.str r.gomod)] :: formatComponents rs)) := by
      rw [h3, hpv]
      rfl
    have hexr := extract_of_lookup_none es "receivers" (by rw [h2, hrv]; rfl)
    have hex := extract_of_lookup_cons es "processors" _ _ hcons
    have hparse : ConfigParser.parse (.map es) = .error .attributeError := by
      simp only [ConfigParser.parse, hexr, except_bind_ok_eq, hex, except_bind_error_eq]
    constructor
    · rw [hparse]
      simp [Except.isOk, Except.toBool]
    · intro h
      simp at h
  case nil =>
  rcases hev : resolved.exporters with _ | ⟨r, rs⟩
  case cons =>
    have hcons : assocLookup es "exporters" =
        some (Yaml.arr (Yaml.map [("gomod", Yaml.str r.gomod)] :: formatComponents rs)) := by
      rw [h4, hev]
      rfl
    have hexr := extract_of_lookup_none es "receivers" (by rw [h2, hrv]; rfl)
    have hexp := extract_of_lookup_none es "processors" (by rw [h3, hpv]; rfl)
    have hex := extract_of_lookup_cons es "exporters" _ _ hcons
    have hparse : ConfigParser.parse (.map es) = .error .attributeError := by
      simp only [ConfigParser.parse, hexr, hexp, except_bind_ok_eq, hex, except_bind_error_eq]
    constructor
    · rw [hparse]
      simp [Except.isOk, Except.toBool]
    · intro h
      simp at h
  case nil =>
  rcases hxv : resolved.extensions with _ | ⟨r, rs⟩
  case cons =>
    have hcons : assocLookup es "extensions" =
        some (Yaml.arr (Yaml.map [("gomod", Yaml.str r.gomod)] :: formatComponents rs)) := by
      rw [h1, hxv]
      rfl
    have hexr := extract_of_lookup_none es "receivers" (by rw [h2, hrv]; rfl)
    have hexp := extract_of_lookup_none es "processors" (by rw [h3, hpv]; rfl)
    have hexe := extract_of_lookup_none es "exporters" (by rw [h4, hev]; rfl)
    have hex := extract_of_lookup_cons es "extensions" _ _ hcons
    have hparse : ConfigParser.parse (.map es) = .error .attributeError := by
      simp only [ConfigParser.parse, hexr, hexp, hexe, except_bind_ok_eq, hex,
        except_bind_error_eq]
    constructor
    · rw [hparse]
      simp [Except.isOk, Except.toBool]
    · intro h
      simp at h
  case nil =>
  rcases hcv : resolved.connectors with _ | ⟨r, rs⟩
  case cons =>
    have hcons : assocLookup es "connectors" =
        some (Yaml.arr (formatComponents (r :: rs))) := by
      rw [h5, hcv]
      rfl
    have hexr := extract_of_lookup_none es "receivers" (by rw [h2, hrv]; rfl)
    have hexp := extract_of_lookup_none es "processors" (by rw [h3, hpv]; rfl)
    have hexe := extract_of_lookup_none es "exporters" (by rw [h4, hev]; rfl)
    have hexx := extract_of_lookup_none es "extensions" (by rw [h1, hxv]; rfl)
    have hex := extract_of_lookup_cons es "connectors"
      (Yaml.map [("gomod", Yaml.str r.gomod)]) (formatComponents rs) hcons
    have hparse : ConfigParser.parse (.map es) = .error .attributeError := by
      simp only [ConfigParser.parse, hexr, hexp, hexe, hexx, except_bind_ok_eq, hex,
        except_bind_error_eq]
    constructor
    · rw [hparse]
      simp [Except.isOk, Except.toBool]
    · intro h
      simp at h
  case nil =>
  have hexr := extract_of_lookup_none es "receivers" (by rw [h2, hrv]; rfl)
  have hexp := extract_of_lookup_none es "processors" (by rw [h3, hpv]; rfl)
  have hexe := extract_of_lookup_none es "exporters" (by rw [h4, hev]; rfl)
  have hexx := extract_of_lookup_none es "extensions" (by rw [h1, hxv]; rfl)
  have hexc := extract_of_lookup_none es "connectors" (by rw [h5, hcv]; rfl)
  have hparse : ConfigParser.parse (.map es) = .ok (⟨[], [], [], [], []⟩, []) := by
    simp only [ConfigParser.parse, hexr, hexp, hexe, hexx, hexc, except_bind_ok_eq]
    exact validate_of_no_service es h6
  constructor
  · rw [hparse]
    simp [Except.isOk, Except.toBool]
  · intro _
    exact hparse

/-- C2 counterexample: for the resolved set holding one receiver and one
connector, re-parsing the generated manifest with the config parser does not
succeed: it raises `AttributeError`, because the receivers section of the
manifest is a list and the parser calls `.keys()` on it. -/
theorem roundtrip_reparse_counterexample :
    (ManifestGenerator.generate demoResolved7 {} none >>= fun m =>
      ConfigParser.parse (ConfigParser.init m)) = .error .attributeError := by
  rfl

/-- The structured manifest generated from an empty resolved set with the
default config and no extra catalog: no category sections at all. -/
def emptyGenEntries : List (String × Yaml) :=
  [("dist", .map
     [("module", .str "github.com/custom/otelcol-distribution"),
      ("name", .str "otelcol-custom"),
      ("description", .str "Custom OpenTelemetry Collector distribution"),
      ("version", .str "1.0.0"), ("output_path", .str "./_build")]),
   ("conf_resolver", .map [("default_uri_scheme", .str "env")]),
   ("providers", .arr
     [.map [("gomod", .str "go.opentelemetry.io/collector/confmap/provider/envprovider v1.27.0")],
      .map [("gomod", .str "go.opentelemetry.io/collector/confmap/provider/fileprovider v1.27.0")],
      .map [("gomod", .str "go.opentelemetry.io/collector/confmap/provider/httpprovider v1.27.0")],
      .map [("gomod", .str "go.opentelemetry.io/collector/confmap/provider/httpsprovider v1.27.0")],
      .map [("gomod", .str "go.opentelemetry.io/collector/confmap/provider/yamlprovider v1.27.0")]]),
   ("replaces", .arr
     [.str "github.com/googleapis/gnostic v0.5.6 => github.com/googleapis/gnostic v0.5.5",
      .str "github.com/docker/go-connections v0.4.1-0.20210727194412-58542c764a11 => github.com/docker/go-connections v0.4.0",
      .str "github.com/mattn/go-ieproxy => github.com/mattn/go-ieproxy v0.0.1",
      .str "github.com/openshift/api => github.com/openshift/api v0.0.0-20230726162818-81f778f3b3ec"])]

/-- Witness for the amended C2: generation from the empty resolved set
succeeds, and re-parsing its manifest succeeds with the empty parsed set,
while the same round trip fails as soon as one category is non-empty. -/
theorem roundtrip_reparse_amended_witness :
    ManifestGenerator.generate ⟨[], [], [], [], [], [], [], [], [], []⟩ {} none =
      .ok (.map emptyGenEntries) ∧
    ConfigParser.parse (ConfigParser.init (.map emptyGenEntries)) =
      .ok (⟨[], [], [], [], []⟩, []) ∧
    (ConfigParser.parse (ConfigParser.init (.map emptyGenEntries))).isOk = true := by
  have hgen : ManifestGenerator.generate ⟨[], [], [], [], [], [], [], [], [], []⟩ {} none =
      .ok (.map emptyGenEntries) := by rfl
  have h := roundtrip_reparse_amended ⟨[], [], [], [], [], [], [], [], [], []⟩ {}
    (.map emptyGenEntries) hgen
  have hp := h.2 ⟨rfl, rfl, rfl, rfl, rfl⟩
  exact ⟨hgen, hp, by rw [hp]; rfl⟩

/-! ## Version resolver (builder/src/version.py) -/

/-- The vendor path marker `CONTRIB_PREFIX` of version.py. -/
def CONTRIB_MARKER : String :=
  "github.com/open-telemetry/opentelemetry-collector-contrib/"

/-- `DEFAULT_VERSION` of version.py. -/
def DEFAULT_VERSION : String := "0.122.0"

/-- The characters after the last `v` of the string, if any. -/
def splitLastV : List Char → Option (List Char)
  | [] => none
  | c :: rest =>
      match splitLastV rest with
      | some t => some t
      | none => if c = 'v' then some rest else none

/-- `re.search(r"v(\d+\.\d+\.\d+)$", gomod)`: the anchored match is a suffix
`v` D1 `.` D2 `.` D3 with non-empty digit runs.  Such a suffix can only start
at the last `v` of the string (after the `v` of any match only digits and
dots occur, so no later `v` exists), hence checking the tail after the last
`v` is equivalent to the regex search.  `\d` is modelled as the ASCII digits,
which is exact for the module strings this program handles. -/
def extractTrailingVersion (s : String) : Option (Nat × Nat × Nat) :=
  match splitLastV s.data with
  | some tail =>
      match splitOnSep '.' tail with
      | [d1, d2, d3] =>
          match digitsToNat d1, digitsToNat d2, digitsToNat d3 with
          | some a, some b, some c => some (a, b, c)
          | _, _, _ => none
      | _ => none
  | none => none

/-- Numeric per-field comparison of semantic versions, as
`packaging.version.parse` orders release triples. -/
def semLe (a b : Nat × Nat × Nat) : Bool :=
  decide (a.1 < b.1 ∨ (a.1 = b.1 ∧ (a.2.1 < b.2.1 ∨ (a.2.1 = b.2.1 ∧ a.2.2 ≤ b.2.2))))

/-- One comparison step of Python `max`. -/
def semMax (a b : Nat × Nat × Nat) : Nat × Nat × Nat :=
  if semLe a b then b else a

/-- `max(version.parse(v) for v in versions)` over a non-empty collection. -/
def maxTriple (v : Nat × Nat × Nat) (vs : List (Nat × Nat × Nat)) : Nat × Nat × Nat :=
  vs.foldl semMax v

/-- `str(...)` of a parsed release triple: numeric fields re-rendered
(leading zeros normalized away, as packaging does). -/
def renderTriple (t : Nat × Nat × Nat) : String :=
  toString t.1 ++ "." ++ toString t.2.1 ++ "." ++ toString t.2.2

/-- The six sections scanned by `get_contrib_version_from_manifest`. -/
def SECTIONS : List String :=
  ["extensions", "exporters", "processors", "receivers", "connectors", "providers"]

/-- The `for component in manifest[section]` loop body: skip entries without
a gomod, keep the trailing version of contrib gomods.  The Python code
accumulates into a set; the duplicates a list keeps do not change the
maximum. -/
def collectCompsE : List Yaml → Except PyErr (List (Nat × Nat × Nat))
  | [] => .ok []
  | c :: rest => do
      let hasG ← pyContains c "gomod"
      if !hasG then collectCompsE rest
      else do
        let g ← pySubscript c "gomod"
        let isContrib ← pyInOp (.str CONTRIB_MARKER) g
        if !isContrib then collectCompsE rest
        else
          match g with
          | .str s =>
              match extractTrailingVersion s with
              | some t => do
                  let r ← collectCompsE rest
                  .ok (t :: r)
              | none => collectCompsE rest
          | _ => .error .typeError

/-- The `for section in sections` loop of
`get_contrib_version_from_manifest`. -/
def sectionsVersionsE (manifest : Yaml) : List String → Except PyErr (List (Nat × Nat × Nat))
  | [] => .ok []
  | s :: rest => do
      let b ← pyContains manifest s
      if !b then sectionsVersionsE manifest rest
      else do
        let sec ← pySubscript manifest s
        let items ← pyToIter sec
        let vs ← collectCompsE items
        let vrest ← sectionsVersionsE manifest rest
        .ok (vs ++ vrest)

/-- `get_contrib_version_from_manifest` on a deserialized manifest:
`ValueError` when no contrib component carries a trailing version, else the
maximum version found.  (`yaml.YAMLError` arises only at the text level,
before this model's input exists.) -/
def getContribVersionFromManifest (manifest : Yaml) : Except PyErr String := do
  let vs ← sectionsVersionsE manifest SECTIONS
  match vs with
  | [] => .error .valueError
  | v :: rest => .ok (renderTriple (maxTriple v rest))

/-- Specification-side extraction for one component entry: the trailing
version of its gomod when that module string contains the vendor marker. -/
def specCompVersions (c : Yaml) : List (Nat × Nat × Nat) :=
  match c with
  | .map ces =>
      match assocLookup ces "gomod" with
      | some (.str g) =>
          if hasSubstr g CONTRIB_MARKER then (extractTrailingVersion g).toList else []
      | _ => []
  | _ => []

/-- Specification-side extraction over a section's component list. -/
def specCompsVersions : List Yaml → List (Nat × Nat × Nat)
  | [] => []
  | c :: rest => specCompVersions c ++ specCompsVersions rest

/-- Specification-side extraction for one named section. -/
def specSectionVersions (manifest : Yaml) (s : String) : List (Nat × Nat × Nat) :=
  match manifest with
  | .map es =>
      match assocLookup es s with
      | some (.arr items) => specCompsVersions items
      | _ => []
  | _ => []

/-- Specification-side extraction over a list of sections. -/
def specSectionsVersions (manifest : Yaml) : List String → List (Nat × Nat × Nat)
  | [] => []
  | s :: rest => specSectionVersions manifest s ++ specSectionsVersions manifest rest

/-- All versions of vendor components across the six scanned sections, per
the spec's words. -/
def specContribVersions (manifest : Yaml) : List (Nat × Nat × Nat) :=
  specSectionsVersions manifest SECTIONS

/-- A component entry of the expected shape: a mapping whose gomod, when
present, is a string. -/
def compShapeOk (c : Yaml) : Bool :=
  match c with
  | .map ces =>
      match assocLookup ces "gomod" with
      | none => true
      | some (.str _) => true
      | some _ => false
  | _ => false

/-- A section of the expected shape: absent, or a list of well-shaped
component entries. -/
def sectionShapeOk (manifest : Yaml) (s : String) : Bool :=
  match manifest with
  | .map es =>
      match assocLookup es s with
      | none => true
      | some (.arr items) => items.all compShapeOk
      | some _ => false
  | _ => false

/-- A manifest document of the expected shape: a mapping whose six scanned
sections are well-shaped. -/
def wellShapedManifest (manifest : Yaml) : Bool :=
  (match manifest with
   | .map _ => true
   | _ => false) && SECTIONS.all (sectionShapeOk manifest)

theorem anyKey_eq_isSome {α : Type} (k : String) :
    ∀ es : List (String × α), (es.any fun p => p.1 == k) = (assocLookup es k).isSome := by
  intro es
  induction es with
  | nil => rfl
  | cons p rest ih =>
    rcases p with ⟨k0, v0⟩
    simp only [List.any_cons, assocLookup]
    by_cases h : k0 == k
    · simp [h]
    · simp [h, ih]

theorem collectCompsE_eq : ∀ items : List Yaml, items.all compShapeOk = true →
    collectCompsE items = .ok (specCompsVersions items) := by
  intro items
  induction items with
  | nil => intro _; rfl
  | cons c rest ih =>
    intro hall
    rw [List.all_cons, Bool.and_eq_true] at hall
    obtain ⟨hc, hrest⟩ := hall
    have hres := ih hrest
    rcases c with _ | s | items' | ces
    · simp [compShapeOk] at hc
    · simp [compShapeOk] at hc
    · simp [compShapeOk] at hc
    · rcases hg : assocLookup ces "gomod" with _ | gv
      · have h1 : pyContains (.map ces) "gomod" = .ok false := by
          simp only [pyContains, pyInOp]
          rw [anyKey_eq_isSome, hg]
          rfl
        simp [collectCompsE, h1, except_bind_ok_eq, hres, specCompsVersions,
          specCompVersions, hg]
      · rcases gv with _ | g | gitems | ges
        · simp [compShapeOk, hg] at hc
        · have h1 : pyContains (.map ces) "gomod" = .ok true := by
            simp only [pyContains, pyInOp]
            rw [anyKey_eq_isSome, hg]
            rfl
          have h2 : pySubscript (.map ces) "gomod" = .ok (.str g) := by
            simp [pySubscript, hg]
          by_cases hcon : hasSubstr g CONTRIB_MARKER
          · rcases hext : extractTrailingVersion g with _ | t
            · simp [collectCompsE, h1, h2, pyInOp, hcon, hext, except_bind_ok_eq, hres,
                specCompsVersions, specCompVersions, hg]
            · simp [collectCompsE, h1, h2, pyInOp, hcon, hext, except_bind_ok_eq, hres,
                specCompsVersions, specCompVersions, hg]
          · simp [collectCompsE, h1, h2, pyInOp, hcon, except_bind_ok_eq, hres,
              specCompsVersions, specCompVersions, hg]
        · simp [compShapeOk, hg] at hc
        · simp [compShapeOk, hg] at hc

theorem sectionsVersionsE_eq (es : List (String × Yaml)) :
    ∀ L : List String, (∀ s ∈ L, sectionShapeOk (.map es) s = true) →
      sectionsVersionsE (.map es) L = .ok (specSectionsVersions (.map es) L) := by
  intro L
  induction L with
  | nil => intro _; rfl
  | cons s rest ih =>
    intro hall
    have hs := hall s (by simp)
    have hrest := ih fun x hx => hall x (by simp [hx])
    have h1 : pyContains (.map es) s = .ok ((assocLookup es s).isSome) := by
      simp only [pyContains, pyInOp]
      rw [anyKey_eq_isSome]
    rcases hg : assocLookup es s with _ | sv
    · simp [sectionsVersionsE, h1, hg, except_bind_ok_eq, hrest, specSectionsVersions,
        specSectionVersions]
    · rcases sv with _ | s' | sitems | ses
      · simp [sectionShapeOk, hg] at hs
      · simp [sectionShapeOk, hg] at hs
      · have hsub : pySubscript (.map es) s = .ok (.arr sitems) := by
          simp [pySubscript, hg]
        have hshape : sitems.all compShapeOk = true := by
          simpa [sectionShapeOk, hg] using hs
        simp [sectionsVersionsE, h1, hg, hsub, pyToIter, except_bind_ok_eq,
          collectCompsE_eq sitems hshape, hrest, specSectionsVersions, specSectionVersions]
      · simp [sectionShapeOk, hg] at hs

theorem semLe_refl (a : Nat × Nat × Nat) : semLe a a = true := by
  rcases a with ⟨a1, a2, a3⟩
  simp [semLe]

theorem semLe_total (a b : Nat × Nat × Nat) : semLe a b = true ∨ semLe b a = true := by
  rcases a with ⟨a1, a2, a3⟩
  rcases b with ⟨b1, b2, b3⟩
  simp only [semLe, decide_eq_true_eq]
  omega

theorem semLe_trans (a b c : Nat × Nat × Nat) (hab : semLe a b = true)
    (hbc : semLe b c = true) : semLe a c = true := by
  rcases a with ⟨a1, a2, a3⟩
  rcases b with ⟨b1, b2, b3⟩
  rcases c with ⟨c1, c2, c3⟩
  simp only [semLe, decide_eq_true_eq] at *
  omega

theorem semLe_antisymm (a b : Nat × Nat × Nat) (hab : semLe a b = true)
    (hba : semLe b a = true) : a = b := by
  rcases a with ⟨a1, a2, a3⟩
  rcases b with ⟨b1, b2, b3⟩
  simp only [semLe, decide_eq_true_eq] at hab hba
  simp only [Prod.mk.injEq]
  omega

theorem maxTriple_mem : ∀ (vs : List (Nat × Nat × Nat)) (v : Nat × Nat × Nat),
    maxTriple v vs ∈ v :: vs := by
  intro vs
  induction vs with
  | nil => intro v; simp [maxTriple]
  | cons w ws ih =>
    intro v
    have step : maxTriple v (w :: ws) = maxTriple (semMax v w) ws := rfl
    rw [step]
    rcases List.mem_cons.mp (ih (semMax v w)) with h | h
    · rw [h]
      unfold semMax
      split <;> simp
    · simp [h]

theorem maxTriple_ge : ∀ (vs : List (Nat × Nat × Nat)) (v u : Nat × Nat × Nat),
    u ∈ v :: vs → semLe u (maxTriple v vs) = true := by
  intro vs
  induction vs with
  | nil =>
    intro v u hu
    simp only [List.mem_singleton] at hu
    rw [hu]
    exact semLe_refl v
  | cons w ws ih =>
    intro v u hu
    have step : maxTriple v (w :: ws) = maxTriple (semMax v w) ws := rfl
    rw [step]
    have hvm : semLe v (semMax v w) = true := by
      unfold semMax
      split
      · assumption
      · exact semLe_refl v
    have hwm : semLe w (semMax v w) = true := by
      unfold semMax
      split
      · exact semLe_refl w
      · next hnot =>
        rcases semLe_total v w with h | h
        · exact absurd h hnot
        · exact h
    have hm := ih (semMax v w) (semMax v w) (by simp)
    rcases List.mem_cons.mp hu with h | h
    · rw [h]
      exact semLe_trans _ _ _ hvm hm
    · rcases List.mem_cons.mp h with h2 | h2
      · rw [h2]
        exact semLe_trans _ _ _ hwm hm
      · exact ih (semMax v w) u (List.mem_cons_of_mem _ h2)

/-- `v` is the maximum of `vs` under numeric semantic-version comparison. -/
def isMaxSemVer (v : Nat × Nat × Nat) (vs : List (Nat × Nat × Nat)) : Prop :=
  v ∈ vs ∧ ∀ w ∈ vs, semLe w v = true

/-- C5: on a well-shaped manifest document, version detection returns
exactly the maximum, under numeric per-field semantic-version comparison, of
the versions `vX.Y.Z` trailing the vendor-marked module strings across the
six scanned sections, and raises an error exactly when no such module string
exists. -/
theorem contrib_version_detection (manifest : Yaml)
    (hws : wellShapedManifest manifest = true) :
    (getContribVersionFromManifest manifest = .error .valueError ↔
      specContribVersions manifest = []) ∧
    (∀ v, isMaxSemVer v (specContribVersions manifest) →
      getContribVersionFromManifest manifest = .ok (renderTriple v)) ∧
    (∀ s, getContribVersionFromManifest manifest = .ok s →
      ∃ v, isMaxSemVer v (specContribVersions manifest) ∧ s = renderTriple v) := by
  rcases manifest with _ | s | items | es
  · simp [wellShapedManifest] at hws
  · simp [wellShapedManifest] at hws
  · simp [wellShapedManifest] at hws
  · have hsecs : ∀ s ∈ SECTIONS, sectionShapeOk (.map es) s = true := by
      rw [wellShapedManifest, Bool.and_eq_true, List.all_eq_true] at hws
      exact hws.2
    have heq := sectionsVersionsE_eq es SECTIONS hsecs
    have hunf : getContribVersionFromManifest (.map es) =
        match specContribVersions (.map es) with
        | [] => .error .valueError
        | v :: rest => .ok (renderTriple (maxTriple v rest)) := by
      unfold getContribVersionFromManifest
      rw [heq]
      rfl
    refine ⟨?_, ?_, ?_⟩
    · rw [hunf]
      rcases specContribVersions (.map es) with _ | ⟨v, rest⟩ <;> simp
    · intro v hv
      rw [hunf]
      rcases hsp : specContribVersions (.map es) with _ | ⟨w, rest⟩
      · rw [hsp] at hv
        cases hv.1
      · rw [hsp] at hv
        have hmem := maxTriple_mem rest w
        have hle1 := hv.2 (maxTriple w rest) hmem
        have hle2 := maxTriple_ge rest w v hv.1
        rw [semLe_antisymm _ _ hle2 hle1]
    · intro s hs
      rw [hunf] at hs
      rcases hsp : specContribVersions (.map es) with _ | ⟨w, rest⟩
      · rw [hsp] at hs
        cases hs
      · rw [hsp] at hs
        injection hs with hs
        refine ⟨maxTriple w rest, ⟨maxTriple_mem rest w, ?_⟩, hs.symm⟩
        intro u hu
        exact maxTriple_ge rest w u hu

/-- A demonstration manifest with two vendor components whose versions order
differently under numeric and lexical comparison (numerically
0.122.0 > 0.9.0, lexically "0.9.0" would win). -/
def demoManifest5 : Yaml :=
  .map [("receivers", .arr
    [.map [("gomod",
      .str "github.com/open-telemetry/opentelemetry-collector-contrib/receiver/filelogreceiver v0.9.0")],
     .map [("gomod",
      .str "github.com/open-telemetry/opentelemetry-collector-contrib/receiver/otlpjsonfilereceiver v0.122.0")]]),
    ("processors", .arr
    [.map [("gomod", .str "go.opentelemetry.io/collector/processor/batchprocessor v0.123.0")]])]

/-- Witness for C5: the detected version of `demoManifest5` is the numeric
maximum 0.122.0 of the two vendor components (not the lexically larger
0.9.0, and not the non-vendor 0.123.0). -/
theorem contrib_version_detection_witness :
    wellShapedManifest demoManifest5 = true ∧
    specContribVersions demoManifest5 = [(0, 9, 0), (0, 122, 0)] ∧
    isMaxSemVer (0, 122, 0) (specContribVersions demoManifest5) ∧
    getContribVersionFromManifest demoManifest5 = .ok "0.122.0" := by
  have h := contrib_version_detection demoManifest5 (by rfl)
  have hmax : isMaxSemVer (0, 122, 0) (specContribVersions demoManifest5) := by
    constructor
    · decide
    · decide
  have hres := h.2.1 (0, 122, 0) hmax
  exact ⟨rfl, by decide, hmax, by rw [hres]; rfl⟩

/-- `BuildVersions` of version.py. -/
structure BuildVersions where
  ocb : String
  supervisor : String
  go : String
  deriving DecidableEq, Repr

/-- One entry of the versions.yaml compatibility table (the file is not part
of the sources; its typed contents are a parameter). -/
structure MappedVersions where
  builder : String
  supervisor : String
  go : String
  deriving DecidableEq, Repr

/-- Python truthiness of an optional version string (`if ocb_version and
supervisor_version`). -/
def truthyOpt : Option String → Bool
  | none => false
  | some s => s ≠ ""

/-- Python `a or b` for an optional string against a default. -/
def pyOrStr (o : Option String) (d : String) : String :=
  match o with
  | none => d
  | some s => if s = "" then d else s

/-- `determine_build_versions`: uses both overrides directly when both are
truthy; otherwise detects the contrib version from the manifest, silently
replacing a `ValueError` (and, at the text level, a YAML parse error) with
`DEFAULT_VERSION`, falls back to `DEFAULT_VERSION` when the detected version
is not in the compatibility table, and fills unspecified fields from the
table entry. -/
def determineBuildVersions (versionMappings : List (String × MappedVersions))
    (manifest : Yaml) (ocbVersion supervisorVersion : Option String) :
    Except PyErr BuildVersions :=
  if truthyOpt ocbVersion && truthyOpt supervisorVersion then
    .ok ⟨ocbVersion.getD "", supervisorVersion.getD "", "1.24.1"⟩
  else
    let contribRes : Except PyErr String :=
      match getContribVersionFromManifest manifest with
      | .ok v => .ok v
      | .error .valueError => .ok DEFAULT_VERSION
      | .error e => .error e
    do
      let contribVersion ← contribRes
      let cv := if (assocLookup versionMappings contribVersion).isNone then DEFAULT_VERSION
                else contribVersion
      match assocLookup versionMappings cv with
      | some versions =>
          .ok ⟨pyOrStr ocbVersion versions.builder,
               pyOrStr supervisorVersion versions.supervisor, versions.go⟩
      | none => .error .keyError

/-- A demonstration compatibility table holding only the default version. -/
def demoMappings : List (String × MappedVersions) :=
  [("0.122.0", ⟨"0.122.0", "0.122.0", "1.24.1"⟩)]

/-- C1 counterexample: on a manifest without any vendor component and with
both overrides absent, `determine_build_versions` does not report an error:
it silently returns the table entry for the default version 0.122.0. -/
theorem version_fallback_counterexample :
    determineBuildVersions demoMappings (.map [("dist", .map [("name", .str "test")])])
      none none = .ok ⟨"0.122.0", "0.122.0", "1.24.1"⟩ := by
  rfl

/-- C1 (amended): when the manifest yields no vendor component
(`get_contrib_version_from_manifest` raises `ValueError`) and at least one
explicit override is absent, `determine_build_versions` silently falls back
to the default contrib version 0.122.0: it returns that table entry's
versions, with any single explicit override taking precedence for its own
field, and reports no error (it could only fail if the table lacked the
default version). -/
theorem version_fallback_amended (versionMappings : List (String × MappedVersions))
    (manifest : Yaml) (ocb sup : Option String) (entry : MappedVersions)
    (hnov : getContribVersionFromManifest manifest = .error .valueError)
    (hmiss : ocb = none ∨ sup = none)
    (hdef : assocLookup versionMappings DEFAULT_VERSION = some entry) :
    determineBuildVersions versionMappings manifest ocb sup =
      .ok ⟨pyOrStr ocb entry.builder, pyOrStr sup entry.supervisor, entry.go⟩ := by
  have hcond : (truthyOpt ocb && truthyOpt sup) = false := by
    rcases hmiss with h | h <;> simp [h, truthyOpt]
  unfold determineBuildVersions
  rw [hcond]
  simp only [Bool.false_eq_true, if_false, hnov, hdef, except_bind_ok_eq,
    Option.isSome_some, Option.isNone_some]

/-- Witness for the amended C1: an empty-of-vendor-components manifest with
only the supervisor override supplied resolves to the default table entry
with the override applied to its field. -/
theorem version_fallback_amended_witness :
    getContribVersionFromManifest (.map [("dist", .map [("name", .str "test")])]) =
      .error .valueError ∧
    assocLookup demoMappings DEFAULT_VERSION =
      some ⟨"0.122.0", "0.122.0", "1.24.1"⟩ ∧
    determineBuildVersions demoMappings (.map [("dist", .map [("name", .str "test")])])
      none (some "0.123.0") = .ok ⟨"0.122.0", "0.123.0", "1.24.1"⟩ := by
  have h := version_fallback_amended demoMappings
    (.map [("dist", .map [("name", .str "test")])]) none (some "0.123.0")
    ⟨"0.122.0", "0.122.0", "1.24.1"⟩ (by rfl) (Or.inl rfl) (by rfl)
  refine ⟨rfl, rfl, ?_⟩
  rw [h]
  rfl
